import Mathlib

/-!
Shallow embedding, in Lean 4, of the pubtator-rag repository: the
rate-limited PubTator HTTP client (src/pubtator_api.py) and the batch
pipeline driver (src/build_pubmed_nodes_edges.py, with the drifted copy in
src/initial_medgemma_ollama.py).  Python dictionaries become association
lists, machine strings become Lean strings manipulated through their
character lists (the Python code only ever handles ASCII identifiers), the
network becomes an explicit oracle assigning an outcome to every attempt,
and Python exceptions become the Except monad.  Every definition is
translated from the source file and line range named in its doc comment.
-/

namespace PubtatorRag

/-! ## String helpers (character-list based, so that everything evaluates) -/

/-- ASCII lowercasing of a single character, the effect of Python str.lower
on the ASCII identifiers this repository manipulates. -/
def lowerChar (c : Char) : Char :=
  if 'A' ≤ c ∧ c ≤ 'Z' then Char.ofNat (c.toNat + 32) else c

/-- Lowercase a string (ASCII), mirroring Python str.lower. -/
def strLower (s : String) : String := ⟨s.data.map lowerChar⟩

/-- Characters kept by the normalisation regexes in the drivers:
the class [a-z0-9] applied after lowercasing. -/
def okChar (c : Char) : Bool := ('a' ≤ c && c ≤ 'z') || ('0' ≤ c && c ≤ '9')

/-- Maximal runs of kept characters of a lowercased string: the pieces that
remain when every maximal run matching [^a-z0-9]+ is used as a separator. -/
def nrmTokens (s : String) : List (List Char) :=
  (((strLower s).data).splitOnP (fun c => !okChar c)).filter (fun t => t ≠ [])

/-- Embedding of the helper at src/build_pubmed_nodes_edges.py line 38:
re.sub of [^a-z0-9]+ by a space over the lowercased string, then strip. -/
def _nrm (s : String) : String :=
  ⟨List.intercalate [' '] (nrmTokens s)⟩

/-- Embedding of the helper at src/build_pubmed_nodes_edges.py line 39:
the guessed canonical chemical id for a drug name. -/
def _chem_id_for (s : String) : String :=
  ⟨"@CHEMICAL_".data ++ List.intercalate ['_'] (nrmTokens s)⟩

/-- Python str.strip: drop leading and trailing whitespace. -/
def strTrim (s : String) : String :=
  ⟨((s.data.dropWhile Char.isWhitespace).reverse.dropWhile Char.isWhitespace).reverse⟩

/-- Python substring membership a in b, as contiguous infix of characters. -/
def substrB (a b : String) : Bool := decide (a.data <:+: b.data)

/-- Python str.startswith at the character-list level. -/
def startsWithB (pre s : String) : Bool := pre.data.isPrefixOf s.data

/-- Python truthiness of an optional string field: a missing key (None) and
the empty string are both falsy. -/
def truthy : Option String → Option String
  | some s => if s = "" then none else some s
  | none => none

/-- Value of a Python a or b or ... chain over optional string fields:
the first truthy field, if any. -/
def firstTruthy : List (Option String) → Option String
  | [] => none
  | o :: os =>
    match truthy o with
    | some s => some s
    | none => firstTruthy os

/-- Embedding of the helper _uniq (src/build_pubmed_nodes_edges.py line 35):
list(dict.fromkeys(xs)), i.e. deduplication keeping first occurrences. -/
def _uniq (xs : List String) : List String :=
  xs.foldl (fun acc x => if x ∈ acc then acc else acc ++ [x]) []

/-! ## The retrying GET helper (src/pubtator_api.py lines 17-33)

One HTTP attempt either yields a response carrying a status code and a
parsed JSON body, or raises a transport-level requests.RequestException.
The network is an oracle from the attempt index to its outcome. -/

/-- Outcome of a single HTTP attempt. -/
inductive Attempt (β : Type) where
  | resp (status : Nat) (body : β)
  | exn
deriving DecidableEq

/-- Status codes retried by _get (src/pubtator_api.py line 25). -/
def isRetryStatus (s : Nat) : Bool :=
  s = 429 || s = 500 || s = 502 || s = 503 || s = 504

/-- Statuses on which requests.Response.raise_for_status raises HTTPError:
client errors (4xx) and server errors (5xx), and nothing else. -/
def isHttpError (s : Nat) : Bool := 400 ≤ s && s < 600

/-- Body of the retry loop of _get: i is the current attempt index and the
second argument the number of retries still available.  A retryable status
with retries left continues; any response with no retries left is returned
as is; a transport exception with no retries left is re-raised. -/
def getAux (net : Nat → Attempt β) : Nat → Nat → Except Unit (Nat × β)
  | i, 0 =>
    match net i with
    | .resp s b => .ok (s, b)
    | .exn => .error ()
  | i, r + 1 =>
    match net i with
    | .resp s b => if isRetryStatus s then getAux net (i + 1) r else .ok (s, b)
    | .exn => getAux net (i + 1) r

/-- Embedding of _get (src/pubtator_api.py lines 17-33), abstracting the
url, params, timeout and the backoff sleeps (time is not observed here).
The ok value is the final response (status code and body); the error value
is the transport exception that propagates after retries are exhausted. -/
def _get (net : Nat → Attempt β) (retries : Nat) : Except Unit (Nat × β) :=
  getAux net 0 retries

/-! ## Entity autocomplete (src/pubtator_api.py lines 38-85) -/

/-- One JSON row of an autocomplete response, with exactly the keys probed
by pubtator_entity_autocomplete; idU stands for the JSON key _id. -/
structure AutoItem where
  label : Option String
  name : Option String
  text : Option String
  id : Option String
  identifier : Option String
  entity_id : Option String
  idU : Option String
deriving DecidableEq

/-- Display name extracted from a row (line 81 of src/pubtator_api.py). -/
def itemName (it : AutoItem) : Option String :=
  firstTruthy [it.label, it.name, it.text]

/-- Entity id extracted from a row (line 82 of src/pubtator_api.py). -/
def itemId (it : AutoItem) : Option String :=
  firstTruthy [it.id, it.identifier, it.entity_id, it.idU]

/-- Python dict assignment out[k] = v on an insertion-ordered association
list: update the value in place when the key exists, append otherwise. -/
def dictInsert (m : List (String × String)) (k v : String) :
    List (String × String) :=
  if m.any (fun p => p.1 = k) then
    m.map (fun p => if p.1 = k then (k, v) else p)
  else m ++ [(k, v)]

/-- The mapping-building loop of pubtator_entity_autocomplete
(src/pubtator_api.py lines 79-85): rows whose name or id is falsy are
skipped, later rows overwrite earlier rows sharing the same name. -/
def buildMapping (data : List AutoItem) : List (String × String) :=
  data.foldl (fun out it =>
    match itemName it, itemId it with
    | some n, some i => dictInsert out n i
    | _, _ => out) []

/-- The (name, id) pair a row contributes to the mapping, if any. -/
def rowPair (it : AutoItem) : Option (String × String) :=
  match itemName it, itemId it with
  | some n, some i => some (n, i)
  | _, _ => none

/-- All contributed (name, id) pairs of a response, in row order. -/
def rowPairs (data : List AutoItem) : List (String × String) :=
  data.filterMap rowPair

/-- First-match lookup in an insertion-ordered association list. -/
def lookupKey (m : List (String × String)) (k : String) : Option String :=
  (m.find? (fun p => p.1 = k)).map (fun p => p.2)

/-- Embedding of pubtator_entity_autocomplete (src/pubtator_api.py lines
38-85) over attempt oracles for its at most two endpoint calls (net1: the
unlimited discovery call, net2: the limited call).  Returns the Python
return value, or error () for an uncaught exception, paired with the
number of endpoint calls issued.  Transport exceptions escaping _get are
caught nowhere in the function, so they propagate in either mode; only
HTTPError raised by raise_for_status is downgraded when strict is false. -/
def pubtator_entity_autocomplete (net1 net2 : Nat → Attempt (List AutoItem))
    (retries : Nat) (limit : Option Nat) (strict : Bool) :
    Except Unit (List (String × String) × Nat) × Nat :=
  match _get net1 retries with
  | .error _ => (.error (), 1)
  | .ok (s1, d1) =>
    if isHttpError s1 then
      (if strict then .error () else .ok ([], 0), 1)
    else
      let total := d1.length
      match limit with
      | some _ =>
        (match _get net2 retries with
         | .error _ => .error ()
         | .ok (s2, d2) =>
           if isHttpError s2 then
             (if strict then .error () else .ok ([], total))
           else .ok (buildMapping d2, total), 2)
      | none => (.ok (buildMapping d1, total), 1)

/-! ## Relation lookup (src/pubtator_api.py lines 87-162) -/

/-- One JSON row of a relations response, with the keys the two relation
functions read: source, target (string fields that may be missing) and the
server-reported publication count (read with default 0). -/
structure RelRow where
  source : Option String
  target : Option String
  publications : Nat
deriving DecidableEq

/-- Comparison embedding Python list.sort with key publications and
reverse=True: sorting with respect to this relation by any stable
algorithm is exactly what CPython timsort does there. -/
def pubsGe (a b : RelRow) : Prop := b.publications ≤ a.publications

instance : DecidableRel pubsGe :=
  fun a b => Nat.decLe b.publications a.publications

instance : IsTotal RelRow pubsGe :=
  ⟨fun a b => Nat.le_total b.publications a.publications⟩

instance : IsTrans RelRow pubsGe :=
  ⟨fun _ _ _ h1 h2 => Nat.le_trans h2 h1⟩

/-- Stable descending sort by publication count (line 109 and line 149 of
src/pubtator_api.py); insertion sort is stable, and the stability theorems
proved below pin the result down to the unique stable descending
reordering, independent of the algorithm. -/
def sortByPubsDesc (l : List RelRow) : List RelRow := l.insertionSort pubsGe

/-- Python truthiness of an optional int argument (used for limit). -/
def limitTruthy : Option Nat → Bool
  | some l => decide (l ≠ 0)
  | none => false

/-- Row filter of treatment_drugs_for_disease (line 108): target equal to
the disease id (exact string comparison) and a truthy source.  Note that no
check at all is made that the source is a chemical identifier. -/
def drugsFilter (disease_id : String) (data : List RelRow) : List RelRow :=
  data.filter (fun it =>
    decide (it.target = some disease_id) && (truthy it.source).isSome)

/-- Row filter of treatment_diseases_for_drug (lines 144-147): source equal
to the chemical id up to case (via _same_id, which maps None to the empty
string), and a target string starting with @disease_ case-insensitively. -/
def diseasesFilter (chemical_id : String) (data : List RelRow) : List RelRow :=
  data.filter (fun it =>
    decide (strLower (it.source.getD "") = strLower chemical_id) &&
    (match it.target with
     | some t => startsWithB "@disease_" (strLower t)
     | none => false))

/-- Deduplicating collection loop of treatment_drugs_for_disease (lines
111-116): walk the sorted rows, keep each unseen source, and break once the
accumulated list reaches a truthy limit.  The Python seen set always holds
exactly the collected ids, so membership is checked in the accumulator. -/
def collectSources (limit : Nat) : List RelRow → List String → List String
  | [], acc => acc
  | it :: rest, acc =>
    let src := it.source.getD ""
    if src ∈ acc then collectSources limit rest acc
    else
      let acc' := acc ++ [src]
      if limit ≠ 0 ∧ limit ≤ acc'.length then acc'
      else collectSources limit rest acc'

/-- Deduplicating collection loop of treatment_diseases_for_drug (lines
151-159): keys are the stripped targets lowercased, the collected values
are the stripped targets, and the loop breaks at a truthy limit. -/
def collectTargets (limit : Option Nat) :
    List RelRow → List String → List String → List String
  | [], _seen, acc => acc
  | it :: rest, seen, acc =>
    let tgt := strTrim (it.target.getD "")
    let k := strLower tgt
    if k ∈ seen then collectTargets limit rest seen acc
    else
      let seen' := seen ++ [k]
      let acc' := acc ++ [tgt]
      if limitTruthy limit ∧ limit.getD 0 ≤ acc'.length then acc'
      else collectTargets limit rest seen' acc'

/-- Pure core of treatment_drugs_for_disease (src/pubtator_api.py lines
104-119), acting on an already parsed list of rows; the returned pair is
the list stored under the disease id in the Python result dict, and the
count of distinct raw sources among the filtered rows. -/
def treatment_drugs_for_disease_rows (disease_id : String) (limit : Nat)
    (data : List RelRow) : List String × Nat :=
  let items := sortByPubsDesc (drugsFilter disease_id data)
  let chem_ids := collectSources limit items []
  ((if limit ≠ 0 then chem_ids.take limit else chem_ids),
   ((items.map (fun it => it.source.getD "")).dedup).length)

/-- Pure core of treatment_diseases_for_drug (src/pubtator_api.py lines
137-162): the collected stripped targets (with no final truncation beyond
the break inside the loop), and the count of distinct lowercased raw
targets among the filtered rows. -/
def treatment_diseases_for_drug_rows (chemical_id : String)
    (limit : Option Nat) (data : List RelRow) : List String × Nat :=
  let items := sortByPubsDesc (diseasesFilter chemical_id data)
  let dis_ids := collectTargets limit items [] []
  (dis_ids, ((items.map (fun it => strLower (it.target.getD ""))).dedup).length)

/-- Embedding of treatment_drugs_for_disease (src/pubtator_api.py lines
87-119) over an attempt oracle.  The body is none when the JSON is not a
list.  Transport exceptions escaping _get propagate in either mode. -/
def treatment_drugs_for_disease (net : Nat → Attempt (Option (List RelRow)))
    (retries : Nat) (disease_id : String) (limit : Nat) (strict : Bool) :
    Except Unit (List String × Nat) :=
  match _get net retries with
  | .error _ => .error ()
  | .ok (s, body) =>
    if isHttpError s then (if strict then .error () else .ok ([], 0))
    else
      match body with
      | none => .ok ([], 0)
      | some data => .ok (treatment_drugs_for_disease_rows disease_id limit data)

/-- Embedding of treatment_diseases_for_drug (src/pubtator_api.py lines
121-162) over an attempt oracle, analogous to the previous function. -/
def treatment_diseases_for_drug (net : Nat → Attempt (Option (List RelRow)))
    (retries : Nat) (chemical_id : String) (limit : Option Nat)
    (strict : Bool) : Except Unit (List String × Nat) :=
  match _get net retries with
  | .error _ => .error ()
  | .ok (s, body) =>
    if isHttpError s then (if strict then .error () else .ok ([], 0))
    else
      match body with
      | none => .ok ([], 0)
      | some data => .ok (treatment_diseases_for_drug_rows chemical_id limit data)

/-! ## Paginated search (src/pubtator_api.py lines 164-222) -/

/-- One search result record; the driver only ever reads its pmid field. -/
structure SearchResult where
  pmid : Option String
deriving DecidableEq

/-- Parsed body of one search page: the results list (the Python
j.get with the or-empty fallback makes it a list) and int(j.get(count)). -/
structure SearchPage where
  results : List SearchResult
  count : Nat
deriving DecidableEq

/-- Additional-page loop of search_treatment_evidence (lines 205-220).  The
network oracle maps a page number to the attempt oracle of the _get call
for that page.  fuel is the number of loop iterations left, i.e.
last_page minus the page before the current one; the Python for-range
makes it last_page - start_page at the top.  Returns the accumulated
results (or the propagating transport exception) together with the list of
page numbers actually requested, in request order. -/
def searchLoop (net : Nat → Nat → Attempt SearchPage) (retries : Nat)
    (strict : Bool) : Nat → Nat → List SearchResult →
    Except Unit (List SearchResult) × List Nat
  | 0, _, acc => (.ok acc, [])
  | fuel + 1, p, acc =>
    if 100 ≤ acc.length then (.ok acc, [])
    else
      match _get (net p) retries with
      | .error _ => (.error (), [p])
      | .ok (s, j) =>
        if isHttpError s then
          ((if strict then .error () else .ok acc), [p])
        else if j.results = [] then (.ok acc, [p])
        else
          let r := searchLoop net retries strict fuel (p + 1) (acc ++ j.results)
          (r.1, p :: r.2)

/-- Embedding of search_treatment_evidence (src/pubtator_api.py lines
164-222) over a page-indexed attempt oracle; the query string built from
the chemical and disease ids is abstracted away (it only parameterises the
oracle).  The second component is the ghost list of page numbers requested,
in request order, one entry per /search/ GET (each of which may retry
internally). -/
def search_treatment_evidence (net : Nat → Nat → Attempt SearchPage)
    (retries : Nat) (page : Nat) (strict : Bool) :
    Except Unit (List SearchResult × Nat) × List Nat :=
  match _get (net page) retries with
  | .error _ => (.error (), [page])
  | .ok (s, j) =>
    if isHttpError s then ((if strict then .error () else .ok ([], 0)), [page])
    else
      let first := j.results
      let total := j.count
      if first.length = 0 ∨ total ≤ first.length then
        (.ok (first.take 100, total), [page])
      else
        let maxPages := (total + first.length - 1) / first.length
        let lastPage := min (page + 9) maxPages
        let r := searchLoop net retries strict (lastPage - page) (page + 1) first
        ((match r.1 with
          | .error _ => .error ()
          | .ok acc => .ok (acc.take 100, total)), page :: r.2)

/-! ## Stage 4 of the pipeline driver (src/build_pubmed_nodes_edges.py
lines 132-155) -/

/-- Cap on retained PMIDs per pair (src/build_pubmed_nodes_edges.py
line 15). -/
def MAX_PMIDS : Nat := 10

/-- Cap on diseases per entity (src/build_pubmed_nodes_edges.py line 14,
environment default). -/
def MAX_DISEASES : Nat := 200

/-- Page PMID extraction (line 141): keep the truthy pmid fields; str() on
an already-string pmid is the identity. -/
def extractPmids (results : List SearchResult) : List String :=
  results.filterMap (fun r => truthy r.pmid)

/-- One evidence entry appended to an indication (lines 147-153); the
derived disease_name display field is omitted as no claim concerns it. -/
structure EvidenceRecord where
  disease_id : String
  pmids : List String
  total_articles : Nat
  pages_fetched : Nat
deriving DecidableEq

/-- Iterations after the first of the per-pair while loop of Stage 4
(lines 138-145): total_articles is fixed by the first iteration, the page
counter advances by one, and the loop breaks on an empty PMID page, on
reaching MAX_PMIDS accumulated PMIDs, or once page times 10 is at least
total_articles.  fuel bounds the recursion; any fuel of at least
total_articles reproduces the Python loop exactly, because the loop surely
breaks once 10 times the page number reaches total_articles, and the
properties proved below hold for every fuel. -/
def stage4Go (net : Nat → Nat → Attempt SearchPage) (retries total : Nat) :
    Nat → Nat → List String → Except Unit (List String × Nat)
  | 0, page, acc => .ok (acc, page)
  | fuel + 1, page, acc =>
    match (search_treatment_evidence net retries page false).1 with
    | .error _ => .error ()
    | .ok (results, _count) =>
      let pmids_page := extractPmids results
      let acc' := acc ++ pmids_page
      if pmids_page = [] ∨ MAX_PMIDS ≤ acc'.length ∨ total ≤ page * 10 then
        .ok (acc', page)
      else stage4Go net retries total fuel (page + 1) acc'

/-- Per-pair evidence collection of Stage 4 (lines 137-153): the first
iteration (page 1) reads total_articles from the count of its search call,
then the remaining iterations run with that total fixed; at the end the
accumulated PMIDs are deduplicated keeping first occurrences and truncated
to MAX_PMIDS.  An uncaught exception from the search client aborts the
whole run (this driver has no try around the call). -/
def stage4Pair (net : Nat → Nat → Attempt SearchPage) (retries fuel : Nat)
    (disease_id : String) : Except Unit EvidenceRecord :=
  match (search_treatment_evidence net retries 1 false).1 with
  | .error _ => .error ()
  | .ok (results, count) =>
    let total := count
    let pmids_page := extractPmids results
    if pmids_page = [] ∨ MAX_PMIDS ≤ pmids_page.length ∨ total ≤ 1 * 10 then
      .ok ⟨disease_id, (_uniq pmids_page).take MAX_PMIDS, total, 1⟩
    else
      (stage4Go net retries total fuel 2 pmids_page).map
        (fun r => ⟨disease_id, (_uniq r.1).take MAX_PMIDS, total, r.2⟩)

/-! ## The pipeline driver, Stages 2-4 and the artifact
(src/build_pubmed_nodes_edges.py lines 82-177).  The three client calls
are abstracted into oracles giving, per input, the value the client call
returns; uncaught client exceptions abort the run. -/

/-- A per-seed resolution record appended in Stage 2 (lines 100-105);
the example_disease field is constantly empty in the reviewed variant and
is omitted. -/
structure DrugEntity where
  drug_name : String
  entity_ids : List String
  total_entity_ids : Nat
deriving DecidableEq

/-- An indication record appended in Stage 3 (lines 123-130). -/
structure Indication where
  drug_name : String
  drug_id : String
  disease_ids : List String
  total_disease_entities : Nat
  evidence : List EvidenceRecord
deriving DecidableEq

/-- A drop-list record appended in Stage 3 (line 119). -/
structure DroppedRel where
  drug_name : String
  drug_id : String
deriving DecidableEq

/-- The artifact assembled at lines 164-177; run metadata (run_id,
timestamps, the limits block) is omitted as no claim concerns it. -/
structure PipelineArtifact where
  drugs : List String
  drug_entities : List DrugEntity
  indications : List Indication
  dropped_no_relations : List DroppedRel
deriving DecidableEq

/-- Stage 2 (lines 93-107): resolve each seed; a seed whose resolved id
list is empty is only logged and skipped (continue), it is recorded
nowhere. -/
def stage2 (resolve : String → List String × Nat) (drugs : List String) :
    List DrugEntity :=
  drugs.filterMap (fun name =>
    if (resolve name).1 = [] then none
    else some ⟨name, (resolve name).1, (resolve name).2⟩)

/-- Stage 3 indications (lines 111-130): for each resolved entity id, an
indication is appended when the relation lookup yields a nonzero total and
a nonempty list; the appended disease list is truncated to MAX_DISEASES.
The two Python accumulator lists are append-only, so the nested loops are
exactly these nested flat maps in iteration order. -/
def stage3Indications (rel : String → List String × Nat)
    (des : List DrugEntity) : List Indication :=
  des.flatMap (fun de => de.entity_ids.filterMap (fun cid =>
    if (rel cid).2 = 0 ∨ (rel cid).1 = [] then none
    else some ⟨de.drug_name, cid, (rel cid).1.take MAX_DISEASES, (rel cid).2, []⟩))

/-- Stage 3 drop list (lines 118-121): entity ids whose relation lookup
yields a zero total or an empty list, tagged with their seed name. -/
def stage3Dropped (rel : String → List String × Nat)
    (des : List DrugEntity) : List DroppedRel :=
  des.flatMap (fun de => de.entity_ids.filterMap (fun cid =>
    if (rel cid).2 = 0 ∨ (rel cid).1 = [] then some ⟨de.drug_name, cid⟩ else none))

/-- Inner loop of Stage 4 (lines 136-153): one evidence record per listed
disease id, in order, aborting at the first uncaught client exception. -/
def evidenceList (ev : String → String → Except Unit EvidenceRecord)
    (cid : String) : List String → Except Unit (List EvidenceRecord)
  | [] => .ok []
  | did :: rest =>
    match ev cid did with
    | .error u => .error u
    | .ok e => (evidenceList ev cid rest).map (e :: ·)

/-- Stage 4 (lines 134-153): fill in the evidence list of every indication,
one evidence record per listed disease id; a client exception aborts the
run (the driver wraps no try around the call). -/
def stage4 (ev : String → String → Except Unit EvidenceRecord) :
    List Indication → Except Unit (List Indication)
  | [] => .ok []
  | ind :: rest =>
    match evidenceList ev ind.drug_id ind.disease_ids with
    | .error u => .error u
    | .ok evs => (stage4 ev rest).map ({ ind with evidence := evs } :: ·)

/-- The whole run of main (lines 82-177): Stages 2-4 then the artifact. -/
def runArtifact (resolve : String → List String × Nat)
    (rel : String → List String × Nat)
    (ev : String → String → Except Unit EvidenceRecord)
    (drugs : List String) : Except Unit PipelineArtifact :=
  (stage4 ev (stage3Indications rel (stage2 resolve drugs))).map
    (fun inds4 => ⟨drugs, stage2 resolve drugs, inds4,
      stage3Dropped rel (stage2 resolve drugs)⟩)

/-! ## Multi-match resolution ordering
(src/build_pubmed_nodes_edges.py lines 41-66) -/

/-- The configured denylist _BAD_TOKENS (line 41). -/
def _BAD_TOKENS : List String :=
  ["sulfone", "glucuronide", "metabolite", "hydroxy", "methyl", "oxide",
   "phosphate", "lactate", "acetate", "nitrate", "sulfate", "salt"]

/-- One preference pass of resolve_chemical_ids (lines 54-63): walk the
items in order and append those satisfying the predicate that are not yet
in the growing preference list. -/
def tierAdd (pred : String × String → Bool)
    (items pref : List (String × String)) : List (String × String) :=
  items.foldl (fun acc kv => if pred kv ∧ kv ∉ acc then acc ++ [kv] else acc)
    pref

/-- The four preference passes of resolve_chemical_ids (lines 50-63):
exact normalised-name matches, then exact canonical-id matches, then
substring matches containing no denylisted token, then everything else in
server order, each pass skipping pairs already chosen. -/
def prefOrder (drug_name : String) (items : List (String × String)) :
    List (String × String) :=
  let qn := _nrm drug_name
  let base_id := _chem_id_for drug_name
  let t1 := tierAdd (fun kv => decide (_nrm kv.1 = qn)) items []
  let t2 := tierAdd (fun kv => decide (kv.2 = base_id)) items t1
  let t3 := tierAdd (fun kv => substrB qn (_nrm kv.1) &&
      !(_BAD_TOKENS.any (fun b => substrB b (_nrm kv.1)))) items t2
  tierAdd (fun _ => true) items t3

/-- Pure core of resolve_chemical_ids (src/build_pubmed_nodes_edges.py
lines 43-66): the id components of the preference ordering, truncated to
the cap.  The surrounding autocomplete call and its lowercase retry (lines
44-48) are abstracted into the items argument, the insertion-ordered pair
list of the returned mapping; the reported total is returned unchanged by
the source and is not modelled. -/
def resolve_chemical_ids (drug_name : String)
    (items : List (String × String)) (limit : Nat) : List String :=
  ((prefOrder drug_name items).map Prod.snd).take limit

/-! ## The rate gate (src/pubtator_api.py lines 7-15 and 22-24)

Real time is modelled by rational timestamps threaded through an explicit
state: now is the current clock value and lastTs the module-level _last_ts
initialised to 0.0 at line 9.  Each _get attempt is one event; the
environment chooses how long code runs between events, the random jitter
drawn, how long the request takes, and whether the attempt raises a
transport exception.  Crucially, the assignment _last_ts = time.time() at
line 24 sits inside _get, which contains no global declaration for
_last_ts (only _throttle at line 12 declares it, and _throttle only reads
it); by Python scoping rules that assignment binds a variable local to
_get, so the module-level _last_ts read by _throttle is never reassigned
by any attempt, successful or not. -/

/-- Minimum inter-request interval _MIN_INTERVAL, one third of a second
(src/pubtator_api.py line 8). -/
def MIN_INTERVAL : ℚ := 1 / 3

/-- Environment choices for one attempt event: the elapsed run time from
the end of the previous attempt to this attempt entering _throttle, the
jitter 0.05 * random.random() drawn in the sleep, the duration of the
session.get call from firing to response or exception, and whether the
attempt raised a transport exception (recorded for trace realism; it does
not influence the module state, because the line-24 assignment is local to
_get either way). -/
structure GateEnv where
  arriveGap : ℚ
  jitter : ℚ
  respDelay : ℚ
  failed : Bool
deriving DecidableEq

/-- Gate state: current clock value and the module-level _last_ts. -/
structure GateState where
  now : ℚ
  lastTs : ℚ
deriving DecidableEq

/-- Time at which the attempt fires its request (_throttle, lines 11-15):
on arrival, if less than _MIN_INTERVAL elapsed since _last_ts, sleep the
remainder plus the jitter, then fire. -/
def fireTime (st : GateState) (e : GateEnv) : ℚ :=
  let arrival := st.now + e.arriveGap
  let dt := arrival - st.lastTs
  if dt < MIN_INTERVAL then arrival + (MIN_INTERVAL - dt) + e.jitter
  else arrival

/-- State after the attempt: the clock advances to the end of the request;
the module-level _last_ts is unchanged, because the assignment
_last_ts = time.time() at line 24 is made without a global declaration in
_get and therefore binds a _get-local variable — whether or not the
attempt raised, the shared timestamp read by _throttle keeps its value. -/
def gateStep (st : GateState) (e : GateEnv) : GateState :=
  ⟨fireTime st e + e.respDelay, st.lastTs⟩

/-- Run a sequence of attempt events, collecting every firing time. -/
def fireTimes (st : GateState) : List GateEnv → List ℚ
  | [] => []
  | e :: es => fireTime st e :: fireTimes (gateStep st e) es

/-- Well-formedness of one environment choice: elapsed times are
nonnegative and the jitter 0.05 * random.random() is nonnegative. -/
def GateEnv.wf (e : GateEnv) : Prop :=
  0 ≤ e.arriveGap ∧ 0 ≤ e.jitter ∧ 0 ≤ e.respDelay

/-! ## Supporting lemmas -/

/-- Unfolding search_treatment_evidence when the first page raises. -/
theorem search_eq_error {net : Nat → Nat → Attempt SearchPage} {retries page : Nat}
    {strict : Bool} {e : Unit} (hg : _get (net page) retries = .error e) :
    search_treatment_evidence net retries page strict = (.error (), [page]) := by
  simp only [search_treatment_evidence, hg]

/-- Unfolding search_treatment_evidence on an HTTP error status. -/
theorem search_eq_http {net : Nat → Nat → Attempt SearchPage} {retries page : Nat}
    {strict : Bool} {s : Nat} {j : SearchPage}
    (hg : _get (net page) retries = .ok (s, j)) (hs : isHttpError s = true) :
    search_treatment_evidence net retries page strict =
      ((if strict then .error () else .ok ([], 0)), [page]) := by
  simp only [search_treatment_evidence, hg, hs, if_true]

/-- Unfolding search_treatment_evidence when page 1 already suffices. -/
theorem search_eq_immediate {net : Nat → Nat → Attempt SearchPage} {retries page : Nat}
    {strict : Bool} {s : Nat} {j : SearchPage}
    (hg : _get (net page) retries = .ok (s, j)) (hs : isHttpError s = false)
    (hc : j.results.length = 0 ∨ j.count ≤ j.results.length) :
    search_treatment_evidence net retries page strict =
      (.ok (j.results.take 100, j.count), [page]) := by
  simp only [search_treatment_evidence, hg, hs, Bool.false_eq_true, if_false, if_pos hc]

/-- Unfolding search_treatment_evidence when further pages are needed. -/
theorem search_eq_more {net : Nat → Nat → Attempt SearchPage} {retries page : Nat}
    {strict : Bool} {s : Nat} {j : SearchPage}
    (hg : _get (net page) retries = .ok (s, j)) (hs : isHttpError s = false)
    (hc : ¬(j.results.length = 0 ∨ j.count ≤ j.results.length)) :
    search_treatment_evidence net retries page strict =
      ((match (searchLoop net retries strict
            (min (page + 9) ((j.count + j.results.length - 1) / j.results.length) - page)
            (page + 1) j.results).1 with
        | .error _ => .error ()
        | .ok acc => .ok (acc.take 100, j.count)),
       page :: (searchLoop net retries strict
            (min (page + 9) ((j.count + j.results.length - 1) / j.results.length) - page)
            (page + 1) j.results).2) := by
  simp only [search_treatment_evidence, hg, hs, Bool.false_eq_true, if_false, if_neg hc]

/-- The additional-page loop issues at most fuel requests. -/
theorem searchLoop_reqs_len (net : Nat → Nat → Attempt SearchPage)
    (retries : Nat) (strict : Bool) :
    ∀ fuel p acc, (searchLoop net retries strict fuel p acc).2.length ≤ fuel := by
  intro fuel
  induction fuel with
  | zero => intro p acc; simp [searchLoop]
  | succ n ih =>
    intro p acc
    simp only [searchLoop]
    split
    · simp
    · cases hg : _get (net p) retries with
      | error e => simp
      | ok v =>
        obtain ⟨s, j⟩ := v
        simp only
        split
        · simp
        · split
          · simp
          · simpa using Nat.succ_le_succ (ih (p + 1) (acc ++ j.results))

/-- The additional-page loop requests consecutive page numbers starting at
its start page. -/
theorem searchLoop_reqs_range (net : Nat → Nat → Attempt SearchPage)
    (retries : Nat) (strict : Bool) :
    ∀ fuel p acc, (searchLoop net retries strict fuel p acc).2 =
      List.range' p (searchLoop net retries strict fuel p acc).2.length := by
  intro fuel
  induction fuel with
  | zero => intro p acc; simp [searchLoop]
  | succ n ih =>
    intro p acc
    simp only [searchLoop]
    split
    · simp
    · cases hg : _get (net p) retries with
      | error e => simp [List.range'_one]
      | ok v =>
        obtain ⟨s, j⟩ := v
        simp only
        split
        · simp [List.range'_one]
        · split
          · simp [List.range'_one]
          · simp only [List.length_cons, List.range'_succ]
            exact congrArg (p :: ·) (ih (p + 1) (acc ++ j.results))

/-! ## Claim C1 -/

/-- C1: for every network behaviour, start page and mode,
search_treatment_evidence returns a result list of length at most 100 and
requests at most 10 pages; the requested pages are consecutive starting at
the start page (so pages after the first are fetched sequentially from
start_page + 1); if the first page is empty or its count is already
satisfied by page 1, exactly that one page is requested and its results are
returned immediately; and otherwise the number of requests is also bounded
through the computed last page. -/
theorem c1_search_treatment_evidence_bounds (net : Nat → Nat → Attempt SearchPage)
    (retries page : Nat) (strict : Bool) :
    (∀ res total,
        (search_treatment_evidence net retries page strict).1 = .ok (res, total) →
        res.length ≤ 100) ∧
    (search_treatment_evidence net retries page strict).2.length ≤ 10 ∧
    (search_treatment_evidence net retries page strict).2 =
      List.range' page (search_treatment_evidence net retries page strict).2.length ∧
    (∀ s j, _get (net page) retries = .ok (s, j) → isHttpError s = false →
        (j.results.length = 0 ∨ j.count ≤ j.results.length) →
        (search_treatment_evidence net retries page strict).2 = [page] ∧
        (search_treatment_evidence net retries page strict).1 =
          .ok (j.results.take 100, j.count)) ∧
    (∀ s j, _get (net page) retries = .ok (s, j) → isHttpError s = false →
        ¬(j.results.length = 0 ∨ j.count ≤ j.results.length) →
        (search_treatment_evidence net retries page strict).2.length ≤
          1 + (min (page + 9) ((j.count + j.results.length - 1) / j.results.length) - page)) := by
  cases hg : _get (net page) retries with
  | error e =>
    rw [search_eq_error hg]
    refine ⟨?_, ?_, ?_, ?_, ?_⟩
    · intro res total h
      cases h
    · simp
    · simp [List.range'_one]
    · intro s j h
      cases h
    · intro s j h
      cases h
  | ok v =>
    obtain ⟨s, j⟩ := v
    cases hs : isHttpError s with
    | true =>
      rw [search_eq_http hg hs]
      refine ⟨?_, ?_, ?_, ?_, ?_⟩
      · intro res total h
        cases strict with
        | true => cases h
        | false =>
          simp only [Bool.false_eq_true, if_false] at h
          cases h
          simp
      · simp
      · simp [List.range'_one]
      · intro s' j' h' hs'
        have h2 : (s, j) = (s', j') := by injection h'
        obtain ⟨rfl, rfl⟩ := (Prod.mk.injEq _ _ _ _).mp h2
        simp [hs] at hs'
      · intro s' j' h' hs'
        have h2 : (s, j) = (s', j') := by injection h'
        obtain ⟨rfl, rfl⟩ := (Prod.mk.injEq _ _ _ _).mp h2
        simp [hs] at hs'
    | false =>
      by_cases hc : j.results.length = 0 ∨ j.count ≤ j.results.length
      · rw [search_eq_immediate hg hs hc]
        refine ⟨?_, ?_, ?_, ?_, ?_⟩
        · intro res total h
          cases h
          simp [List.length_take]
        · simp
        · simp [List.range'_one]
        · intro s' j' h' _ _
          have h2 : (s, j) = (s', j') := by injection h'
          obtain ⟨rfl, rfl⟩ := (Prod.mk.injEq _ _ _ _).mp h2
          exact ⟨rfl, rfl⟩
        · intro s' j' h' _ hc'
          have h2 : (s, j) = (s', j') := by injection h'
          obtain ⟨rfl, rfl⟩ := (Prod.mk.injEq _ _ _ _).mp h2
          exact absurd hc hc'
      · rw [search_eq_more hg hs hc]
        have hlen := searchLoop_reqs_len net retries strict
          (min (page + 9) ((j.count + j.results.length - 1) / j.results.length) - page)
          (page + 1) j.results
        have hrange := searchLoop_reqs_range net retries strict
          (min (page + 9) ((j.count + j.results.length - 1) / j.results.length) - page)
          (page + 1) j.results
        refine ⟨?_, ?_, ?_, ?_, ?_⟩
        · intro res total h
          simp only at h
          split at h
          · cases h
          · cases h
            simp [List.length_take]
        · simp only [List.length_cons]
          have h9 : min (page + 9) ((j.count + j.results.length - 1) / j.results.length) - page ≤ 9 := by
            omega
          omega
        · simp only [List.length_cons, List.range'_succ]
          exact congrArg (page :: ·) hrange
        · intro s' j' h' _ hc'
          have h2 : (s, j) = (s', j') := by injection h'
          obtain ⟨rfl, rfl⟩ := (Prod.mk.injEq _ _ _ _).mp h2
          exact absurd hc' hc
        · intro s' j' h' _ _
          have h2 : (s, j) = (s', j') := by injection h'
          obtain ⟨rfl, rfl⟩ := (Prod.mk.injEq _ _ _ _).mp h2
          simp only [List.length_cons]
          omega

/-- Witness for C1: a concrete oracle whose first page is empty with a
reported count of 7 makes the function request exactly page 1 and return
immediately with the empty result list. -/
theorem c1_search_treatment_evidence_bounds_witness :
    (search_treatment_evidence (fun _ _ => Attempt.resp 200 ⟨[], 7⟩) 3 1 false).2 = [1] ∧
    (search_treatment_evidence (fun _ _ => Attempt.resp 200 ⟨[], 7⟩) 3 1 false).1 =
      .ok ([], 7) := by
  have h := (c1_search_treatment_evidence_bounds
    (fun _ _ => Attempt.resp 200 ⟨[], 7⟩) 3 1 false).2.2.2.1
    200 ⟨[], 7⟩ rfl rfl (Or.inl rfl)
  exact ⟨h.1, h.2⟩

/-! ## Claim C2 -/

/-- Folding the dedup step of _uniq preserves Nodup. -/
theorem uniqFold_nodup :
    ∀ (xs acc : List String), acc.Nodup →
      (xs.foldl (fun acc x => if x ∈ acc then acc else acc ++ [x]) acc).Nodup := by
  intro xs
  induction xs with
  | nil => intro acc h; simpa using h
  | cons x xs ih =>
    intro acc h
    simp only [List.foldl_cons]
    by_cases hx : x ∈ acc
    · rw [if_pos hx]; exact ih acc h
    · rw [if_neg hx]
      exact ih (acc ++ [x]) (by simp [List.nodup_append, h, hx])

/-- The deduplication helper _uniq returns a list with no duplicates. -/
theorem uniq_nodup (xs : List String) : (_uniq xs).Nodup :=
  uniqFold_nodup xs [] List.nodup_nil

/-- C2: every evidence record produced for a pair in Stage 4 has a pmids
list with no duplicates of length at most MAX_PMIDS, and its
total_articles field equals the count reported by the search client for
the first page fetched for that pair (the page-1 call), whatever the
network does and however much fuel the loop is given. -/
theorem c2_stage4_evidence_invariants (net : Nat → Nat → Attempt SearchPage)
    (retries fuel : Nat) (did : String) (ev : EvidenceRecord)
    (h : stage4Pair net retries fuel did = .ok ev) :
    ev.pmids.Nodup ∧ ev.pmids.length ≤ MAX_PMIDS ∧
    (∀ res c, (search_treatment_evidence net retries 1 false).1 = .ok (res, c) →
      ev.total_articles = c) := by
  unfold stage4Pair at h
  cases hg : (search_treatment_evidence net retries 1 false).1 with
  | error e => rw [hg] at h; cases h
  | ok v =>
    obtain ⟨results, count⟩ := v
    rw [hg] at h
    simp only at h
    have hev : ∃ l pg, ev = ⟨did, (_uniq l).take MAX_PMIDS, count, pg⟩ := by
      split at h
      · injection h with h5
        exact ⟨extractPmids results, 1, h5.symm⟩
      · cases hgo : stage4Go net retries count fuel 2 (extractPmids results) with
        | error e => rw [hgo] at h; cases h
        | ok r =>
          rw [hgo] at h
          simp only [Except.map] at h
          injection h with h5
          exact ⟨r.1, r.2, h5.symm⟩
    obtain ⟨l, pg, rfl⟩ := hev
    refine ⟨?_, ?_, ?_⟩
    · exact List.Nodup.sublist (List.take_sublist _ _) (uniq_nodup l)
    · simp [List.length_take]
    · intro res c hok
      have h2 : (results, count) = (res, c) := by injection hok
      exact ((Prod.mk.injEq _ _ _ _).mp h2).2

/-- Witness for C2: a pair whose single page yields PMIDs 1, 2, 3 with a
server count of 3 produces exactly that deduplicated list. -/
theorem c2_stage4_evidence_invariants_witness :
    (⟨"@DISEASE_d", ["1", "2", "3"], 3, 1⟩ : EvidenceRecord).pmids.Nodup ∧
    (⟨"@DISEASE_d", ["1", "2", "3"], 3, 1⟩ : EvidenceRecord).pmids.length ≤ MAX_PMIDS := by
  have h := c2_stage4_evidence_invariants
    (fun _ _ => Attempt.resp 200 ⟨[⟨some "1"⟩, ⟨some "2"⟩, ⟨some "3"⟩], 3⟩) 3 100
    "@DISEASE_d" ⟨"@DISEASE_d", ["1", "2", "3"], 3, 1⟩ rfl
  exact ⟨h.1, h.2.1⟩

/-! ## Claim C3 -/

/-- A network whose attempts all respond makes the retry loop of _get
return some response. -/
theorem getAux_ok_of_noExn {β : Type} {net : Nat → Attempt β}
    (hne : ∀ i, net i ≠ Attempt.exn) :
    ∀ r i, ∃ s b, getAux net i r = .ok (s, b) := by
  intro r
  induction r with
  | zero =>
    intro i
    cases hn : net i with
    | resp s b => exact ⟨s, b, by simp [getAux, hn]⟩
    | exn => exact absurd hn (hne i)
  | succ n ih =>
    intro i
    cases hn : net i with
    | resp s b =>
      by_cases hr : isRetryStatus s
      · obtain ⟨s2, b2, h2⟩ := ih (i + 1)
        exact ⟨s2, b2, by simp [getAux, hn, hr, h2]⟩
      · exact ⟨s, b, by simp [getAux, hn, hr]⟩
    | exn => exact absurd hn (hne i)

/-- Specialisation of the previous lemma to _get itself. -/
theorem get_ok_of_noExn {β : Type} {net : Nat → Attempt β}
    (hne : ∀ i, net i ≠ Attempt.exn) (retries : Nat) :
    ∃ s b, _get net retries = .ok (s, b) :=
  getAux_ok_of_noExn hne retries 0

/-- A network whose attempts all raise makes _get raise. -/
theorem getAux_error_of_allExn {β : Type} {net : Nat → Attempt β}
    (hex : ∀ i, net i = Attempt.exn) :
    ∀ r i, getAux net i r = (.error () : Except Unit (Nat × β)) := by
  intro r
  induction r with
  | zero => intro i; simp [getAux, hex i]
  | succ n ih => intro i; simp [getAux, hex i, ih (i + 1)]

/-- On an exception-free network the non-strict additional-page loop never
raises. -/
theorem searchLoop_ok_of_noExn {net : Nat → Nat → Attempt SearchPage}
    (retries : Nat) (hne : ∀ p i, net p i ≠ Attempt.exn) :
    ∀ fuel p acc, ∃ acc2, (searchLoop net retries false fuel p acc).1 = .ok acc2 := by
  intro fuel
  induction fuel with
  | zero => intro p acc; exact ⟨acc, rfl⟩
  | succ n ih =>
    intro p acc
    simp only [searchLoop]
    split
    · exact ⟨acc, rfl⟩
    · obtain ⟨s, b, hg⟩ := get_ok_of_noExn (hne p) retries
      rw [hg]
      simp only
      split
      · exact ⟨acc, rfl⟩
      · split
        · exact ⟨acc, rfl⟩
        · exact ih (p + 1) (acc ++ b.results)

/-- Counterexample to C3 as stated: when every attempt raises a transport
exception, the client operations in lenient mode (strict = false) do not
return an empty or partial result; the exception propagates to the caller
just as in strict mode, for autocomplete, relation lookup and paginated
search alike. -/
theorem c3_lenient_transport_cex :
    (pubtator_entity_autocomplete (fun _ => Attempt.exn) (fun _ => Attempt.exn)
      3 none false).1 = .error () ∧
    treatment_diseases_for_drug (fun _ => Attempt.exn) 3 "@CHEMICAL_metformin"
      none false = .error () ∧
    treatment_drugs_for_disease (fun _ => Attempt.exn) 3 "@DISEASE_obesity"
      10 false = .error () ∧
    (search_treatment_evidence (fun _ _ => Attempt.exn) 3 1 false).1 = .error () :=
  ⟨rfl, rfl, rfl, rfl⟩

/-- C3 amended: in lenient mode every client operation returns a
best-available result for HTTP-status faults — on an exception-free
network no lenient operation ever raises — but a transport-level exception
that exhausts its retries propagates to the caller in lenient mode exactly
as in strict mode, for all three operations. -/
theorem c3_fault_semantics
    (net1 net2 net1x : Nat → Attempt (List AutoItem))
    (netR netD netRx netDx : Nat → Attempt (Option (List RelRow)))
    (netS netSx : Nat → Nat → Attempt SearchPage)
    (retries page : Nat) (limit : Option Nat) (cid did : String)
    (limC : Option Nat) (limD : Nat) (strict : Bool) :
    ((∀ i, net1 i ≠ Attempt.exn) → (∀ i, net2 i ≠ Attempt.exn) →
      ∃ v, (pubtator_entity_autocomplete net1 net2 retries limit false).1 = .ok v) ∧
    ((∀ i, netR i ≠ Attempt.exn) →
      ∃ v, treatment_diseases_for_drug netR retries cid limC false = .ok v) ∧
    ((∀ i, netD i ≠ Attempt.exn) →
      ∃ v, treatment_drugs_for_disease netD retries did limD false = .ok v) ∧
    ((∀ p i, netS p i ≠ Attempt.exn) →
      ∃ v, (search_treatment_evidence netS retries page false).1 = .ok v) ∧
    ((∀ i, net1x i = Attempt.exn) →
      (pubtator_entity_autocomplete net1x net2 retries limit strict).1 = .error ()) ∧
    ((∀ i, netRx i = Attempt.exn) →
      treatment_diseases_for_drug netRx retries cid limC strict = .error ()) ∧
    ((∀ i, netDx i = Attempt.exn) →
      treatment_drugs_for_disease netDx retries did limD strict = .error ()) ∧
    ((∀ p i, netSx p i = Attempt.exn) →
      (search_treatment_evidence netSx retries page strict).1 = .error ()) := by
  refine ⟨?_, ?_, ?_, ?_, ?_, ?_, ?_, ?_⟩
  · intro h1 h2
    obtain ⟨s, b, hg⟩ := get_ok_of_noExn h1 retries
    simp only [pubtator_entity_autocomplete, hg]
    split
    · exact ⟨([], 0), rfl⟩
    · cases limit with
      | none => exact ⟨(buildMapping b, b.length), rfl⟩
      | some l =>
        obtain ⟨s2, b2, hg2⟩ := get_ok_of_noExn h2 retries
        simp only [hg2]
        split
        · exact ⟨([], b.length), rfl⟩
        · exact ⟨(buildMapping b2, b.length), rfl⟩
  · intro h1
    obtain ⟨s, b, hg⟩ := get_ok_of_noExn h1 retries
    simp only [treatment_diseases_for_drug, hg]
    split
    · exact ⟨([], 0), rfl⟩
    · cases b with
      | none => exact ⟨([], 0), rfl⟩
      | some data => exact ⟨_, rfl⟩
  · intro h1
    obtain ⟨s, b, hg⟩ := get_ok_of_noExn h1 retries
    simp only [treatment_drugs_for_disease, hg]
    split
    · exact ⟨([], 0), rfl⟩
    · cases b with
      | none => exact ⟨([], 0), rfl⟩
      | some data => exact ⟨_, rfl⟩
  · intro h1
    obtain ⟨s, b, hg⟩ := get_ok_of_noExn (h1 page) retries
    by_cases hs : isHttpError s
    · refine ⟨([], 0), ?_⟩
      rw [search_eq_http hg hs]
      simp
    · rw [Bool.not_eq_true] at hs
      by_cases hc : b.results.length = 0 ∨ b.count ≤ b.results.length
      · exact ⟨_, by rw [search_eq_immediate hg hs hc]⟩
      · rw [search_eq_more hg hs hc]
        obtain ⟨acc2, hacc⟩ := searchLoop_ok_of_noExn retries h1
          (min (page + 9) ((b.count + b.results.length - 1) / b.results.length) - page)
          (page + 1) b.results
        rw [hacc]
        exact ⟨_, rfl⟩
  · intro h1
    have hg : _get net1x retries = (.error () : Except Unit (Nat × List AutoItem)) :=
      getAux_error_of_allExn h1 retries 0
    simp only [pubtator_entity_autocomplete, hg]
  · intro h1
    have hg : _get netRx retries = (.error () : Except Unit (Nat × Option (List RelRow))) :=
      getAux_error_of_allExn h1 retries 0
    simp only [treatment_diseases_for_drug, hg]
  · intro h1
    have hg : _get netDx retries = (.error () : Except Unit (Nat × Option (List RelRow))) :=
      getAux_error_of_allExn h1 retries 0
    simp only [treatment_drugs_for_disease, hg]
  · intro h1
    have hg : _get (netSx page) retries = (.error () : Except Unit (Nat × SearchPage)) :=
      getAux_error_of_allExn (h1 page) retries 0
    rw [search_eq_error hg]

/-- Witness for the amended C3: a network answering 503 on every attempt
exhausts its retries yet the lenient autocomplete returns a value, while
an all-exception network makes even strict-mode autocomplete raise. -/
theorem c3_fault_semantics_witness :
    (∃ v, (pubtator_entity_autocomplete (fun _ => Attempt.resp 503 [])
      (fun _ => Attempt.resp 503 []) 3 none false).1 = .ok v) ∧
    (pubtator_entity_autocomplete (fun _ => Attempt.exn)
      (fun _ => Attempt.resp 503 []) 3 none true).1 = .error () := by
  have h := c3_fault_semantics (fun _ => Attempt.resp 503 [])
    (fun _ => Attempt.resp 503 []) (fun _ => Attempt.exn)
    (fun _ => Attempt.resp 200 (some [])) (fun _ => Attempt.resp 200 (some []))
    (fun _ => Attempt.exn) (fun _ => Attempt.exn)
    (fun _ _ => Attempt.resp 200 ⟨[], 0⟩) (fun _ _ => Attempt.exn)
    3 1 none "@CHEMICAL_c" "@DISEASE_d" none 10 true
  exact ⟨h.1 (fun i h2 => Attempt.noConfusion h2) (fun i h2 => Attempt.noConfusion h2),
    h.2.2.2.2.1 (fun i => rfl)⟩

/-! ## Claim C4 -/

/-- Filtering out elements the mapped function drops anyway does not change
a filterMap. -/
theorem filterMap_filter_of_none {α β : Type} (f : α → Option β) (p : α → Bool)
    (h : ∀ a, p a = false → f a = none) :
    ∀ l : List α, l.filterMap f = (l.filter p).filterMap f := by
  intro l
  induction l with
  | nil => rfl
  | cons a l ih =>
    by_cases hp : p a = true
    · simp [List.filter_cons, hp, List.filterMap_cons, ih]
    · rw [Bool.not_eq_true] at hp
      simp [List.filter_cons, hp, List.filterMap_cons, h a hp, ih]

/-- Every Stage-2 record comes from a seed whose resolution was nonempty. -/
theorem stage2_mem {resolve : String → List String × Nat} {drugs : List String}
    {de : DrugEntity} (h : de ∈ stage2 resolve drugs) :
    de.drug_name ∈ drugs ∧ (resolve de.drug_name).1 ≠ [] := by
  simp only [stage2] at h
  obtain ⟨name, hmem, hf⟩ := List.mem_filterMap.mp h
  by_cases hr : (resolve name).1 = []
  · rw [if_pos hr] at hf; cases hf
  · rw [if_neg hr] at hf
    injection hf with hf2
    rw [← hf2]
    exact ⟨hmem, hr⟩

/-- Dropping an unresolvable seed from the seed list leaves Stage 2
unchanged: the run continues exactly as with the remaining seeds. -/
theorem stage2_filter_seed {resolve : String → List String × Nat} {seed : String}
    (hseed : (resolve seed).1 = []) (drugs : List String) :
    stage2 resolve drugs = stage2 resolve (drugs.filter (fun d => d ≠ seed)) :=
  filterMap_filter_of_none _ _
    (fun a ha => by
      have : a = seed := by simpa using ha
      subst this
      simp [hseed]) drugs

/-- Every Stage-3 indication carries the name of some Stage-2 record. -/
theorem stage3Indications_mem {rel : String → List String × Nat}
    {des : List DrugEntity} {ind : Indication}
    (h : ind ∈ stage3Indications rel des) :
    ∃ de ∈ des, ind.drug_name = de.drug_name := by
  simp only [stage3Indications] at h
  obtain ⟨de, hde, hmem⟩ := List.mem_flatMap.mp h
  obtain ⟨cid, _, hf⟩ := List.mem_filterMap.mp hmem
  refine ⟨de, hde, ?_⟩
  split at hf
  · cases hf
  · injection hf with hf2
    rw [← hf2]

/-- Every Stage-3 drop record carries the name of some Stage-2 record. -/
theorem stage3Dropped_mem {rel : String → List String × Nat}
    {des : List DrugEntity} {dr : DroppedRel}
    (h : dr ∈ stage3Dropped rel des) :
    ∃ de ∈ des, dr.drug_name = de.drug_name := by
  simp only [stage3Dropped] at h
  obtain ⟨de, hde, hmem⟩ := List.mem_flatMap.mp h
  obtain ⟨cid, _, hf⟩ := List.mem_filterMap.mp hmem
  refine ⟨de, hde, ?_⟩
  split at hf
  · injection hf with hf2
    rw [← hf2]
  · cases hf

/-- Stage 4 only rewrites evidence lists; names are preserved. -/
theorem stage4_names {ev : String → String → Except Unit EvidenceRecord} :
    ∀ {inds l : List Indication}, stage4 ev inds = .ok l →
      ∀ ind2 ∈ l, ∃ ind ∈ inds, ind2.drug_name = ind.drug_name := by
  intro inds
  induction inds with
  | nil =>
    intro l h ind2 h2
    injection h with h3
    rw [← h3] at h2
    cases h2
  | cons ind rest ih =>
    intro l h ind2 h2
    unfold stage4 at h
    cases he : evidenceList ev ind.drug_id ind.disease_ids with
    | error u => rw [he] at h; cases h
    | ok evs =>
      rw [he] at h
      cases hr : stage4 ev rest with
      | error u => rw [hr] at h; cases h
      | ok l2 =>
        rw [hr] at h
        simp only [Except.map] at h
        injection h with h3
        rw [← h3] at h2
        rcases List.mem_cons.mp h2 with hh | hh
        · exact ⟨ind, List.mem_cons_self ind rest, by rw [hh]⟩
        · obtain ⟨ind0, hmem0, hname⟩ := ih hr ind2 hh
          exact ⟨ind0, List.mem_cons_of_mem ind hmem0, hname⟩

/-- Counterexample to C4 as stated: with the single seed foo resolving to
zero entity ids, the finalized artifact has an empty drop list — the drop
list (dropped_no_relations) does not contain the unresolved seed, contrary
to the claim. -/
theorem c4_drop_list_cex :
    runArtifact (fun _ => ([], 0)) (fun _ => ([], 0)) (fun _ _ => Except.error ())
      ["foo"] = .ok ⟨["foo"], [], [], []⟩ ∧
    ((fun (_ : String) => (([] : List String), 0)) "foo").1 = [] :=
  ⟨rfl, rfl⟩

/-- C4 amended: for every seed resolving to zero entity ids, the run
continues exactly as if that seed were removed from the seed list, and no
record of the finalized artifact references that seed — neither an
indication nor, contrary to the original claim, an entry of the drop list,
which only ever records resolved entity ids with zero treat relations. -/
theorem c4_unresolved_seed (resolve rel : String → List String × Nat)
    (ev : String → String → Except Unit EvidenceRecord)
    (drugs : List String) (seed : String)
    (hseed : (resolve seed).1 = []) :
    stage2 resolve drugs = stage2 resolve (drugs.filter (fun d => d ≠ seed)) ∧
    (∀ de ∈ stage2 resolve drugs, de.drug_name ≠ seed) ∧
    (∀ art, runArtifact resolve rel ev drugs = .ok art →
      (∀ ind ∈ art.indications, ind.drug_name ≠ seed) ∧
      (∀ dr ∈ art.dropped_no_relations, dr.drug_name ≠ seed)) := by
  have h2 : ∀ de ∈ stage2 resolve drugs, de.drug_name ≠ seed := by
    intro de hde heq
    have := (stage2_mem hde).2
    rw [heq] at this
    exact this hseed
  refine ⟨stage2_filter_seed hseed drugs, h2, ?_⟩
  intro art hart
  simp only [runArtifact] at hart
  cases h4 : stage4 ev (stage3Indications rel (stage2 resolve drugs)) with
  | error u => rw [h4] at hart; cases hart
  | ok inds4 =>
    rw [h4] at hart
    simp only [Except.map] at hart
    injection hart with h5
    constructor
    · intro ind hind
      rw [← h5] at hind
      simp only at hind
      obtain ⟨ind0, hmem0, hname⟩ := stage4_names h4 ind hind
      obtain ⟨de, hde, hname2⟩ := stage3Indications_mem hmem0
      rw [hname, hname2]
      exact h2 de hde
    · intro dr hdr
      rw [← h5] at hdr
      simp only at hdr
      obtain ⟨de, hde, hname2⟩ := stage3Dropped_mem hdr
      rw [hname2]
      exact h2 de hde

/-- Witness for the amended C4: with foo unresolvable and good resolving,
Stage 2 equals Stage 2 on the list without foo, and no Stage-2 record is
named foo. -/
theorem c4_unresolved_seed_witness :
    stage2 (fun n => if n = "good" then (["@CHEMICAL_good"], 1) else ([], 0))
      ["foo", "good"] =
      stage2 (fun n => if n = "good" then (["@CHEMICAL_good"], 1) else ([], 0))
        (["foo", "good"].filter (fun d => d ≠ "foo")) ∧
    (∀ de ∈ stage2 (fun n => if n = "good" then (["@CHEMICAL_good"], 1) else ([], 0))
        ["foo", "good"], de.drug_name ≠ "foo") := by
  have h := c4_unresolved_seed
    (fun n => if n = "good" then (["@CHEMICAL_good"], 1) else ([], 0))
    (fun _ => ([], 0)) (fun _ _ => Except.error ()) ["foo", "good"] "foo" rfl
  exact ⟨h.1, h.2.1⟩

/-! ## Claim C8 -/

/-- C8 (code bug): the rate gate of the source never enforces any spacing.
The module-level _last_ts read by _throttle is never reassigned — the
assignment at src/pubtator_api.py line 24 lacks a global declaration and
binds a _get-local variable — so _throttle compares the wall clock against
the initial 0.0 and sleeps only while less than _MIN_INTERVAL has elapsed
since the epoch.  The theorem records: the module timestamp is invariant
under every attempt, successful or failed; the sleep semantics of
_throttle fire on arrival whenever at least _MIN_INTERVAL has elapsed
since the recorded timestamp (which at any realistic clock has elapsed
since the epoch); and on a concrete well-formed exception-free trace at a
realistic clock (1000 s after the epoch, _last_ts still 0) two consecutive
requests fire only 1/100 s apart, far below the minimum interval of 1/3 s
even after subtracting a generous epsilon of 1/10 — exactly the behaviour
the claim, and the evident intent of the code (the global declaration in
_throttle and the 3-requests-per-second comment at line 8), rule out. -/
theorem c8_rate_gate_never_enforced :
    (∀ (st : GateState) (e : GateEnv), (gateStep st e).lastTs = st.lastTs) ∧
    (∀ (st : GateState) (e : GateEnv),
      st.now + e.arriveGap - st.lastTs < MIN_INTERVAL →
      fireTime st e = st.lastTs + MIN_INTERVAL + e.jitter) ∧
    (∀ (st : GateState) (e : GateEnv),
      MIN_INTERVAL ≤ st.now + e.arriveGap - st.lastTs →
      fireTime st e = st.now + e.arriveGap) ∧
    fireTimes ⟨1000, 0⟩ [⟨0, 0, 0, false⟩, ⟨1/100, 0, 0, false⟩] =
      [1000, 1000 + 1/100] ∧
    ((⟨0, 0, 0, false⟩ : GateEnv).wf ∧
      (⟨0, 0, 0, false⟩ : GateEnv).failed = false) ∧
    ((⟨1/100, 0, 0, false⟩ : GateEnv).wf ∧
      (⟨1/100, 0, 0, false⟩ : GateEnv).failed = false) ∧
    ¬ List.Chain' (fun a b => a + (MIN_INTERVAL - 1/10) ≤ b)
      (fireTimes ⟨1000, 0⟩ [⟨0, 0, 0, false⟩, ⟨1/100, 0, 0, false⟩]) := by
  have heq : fireTimes ⟨1000, 0⟩ [⟨0, 0, 0, false⟩, ⟨1/100, 0, 0, false⟩] =
      [1000, 1000 + 1/100] := by
    norm_num [fireTimes, fireTime, gateStep, MIN_INTERVAL]
  refine ⟨fun st e => rfl, ?_, ?_, heq,
    ⟨⟨by norm_num, by norm_num, by norm_num⟩, rfl⟩,
    ⟨⟨by norm_num, by norm_num, by norm_num⟩, rfl⟩, ?_⟩
  · intro st e hlt
    simp only [fireTime]
    rw [if_pos hlt]
    ring
  · intro st e hge
    simp only [fireTime]
    rw [if_neg (not_lt.mpr hge)]
  · rw [heq]
    simp only [List.chain'_cons, List.chain'_singleton, and_true, MIN_INTERVAL]
    intro hcon
    norm_num at hcon

/-- Witness for the C8 theorem: at the module state as initialised (both
clock and _last_ts at 0, i.e. within _MIN_INTERVAL of the epoch) a call
sleeps and fires exactly at _MIN_INTERVAL, while at a realistic clock a
call fires on arrival with no sleep at all. -/
theorem c8_rate_gate_never_enforced_witness :
    fireTime ⟨0, 0⟩ ⟨0, 0, 0, false⟩ = (0 : ℚ) + MIN_INTERVAL + 0 ∧
    fireTime ⟨1000, 0⟩ ⟨1/100, 0, 0, false⟩ = (1000 : ℚ) + 1/100 := by
  have h := c8_rate_gate_never_enforced
  exact ⟨h.2.1 ⟨0, 0⟩ ⟨0, 0, 0, false⟩ (by norm_num [MIN_INTERVAL]),
    h.2.2.1 ⟨1000, 0⟩ ⟨1/100, 0, 0, false⟩ (by norm_num [MIN_INTERVAL])⟩

/-! ## Claim C5 -/


theorem sortByPubsDesc_perm (l : List RelRow) : (sortByPubsDesc l).Perm l :=
  List.perm_insertionSort pubsGe l

theorem sortByPubsDesc_sorted (l : List RelRow) :
    (sortByPubsDesc l).Pairwise pubsGe :=
  List.sorted_insertionSort pubsGe l

theorem sortByPubsDesc_stable (l : List RelRow) (c : Nat) :
    (sortByPubsDesc l).filter (fun r => decide (r.publications = c)) =
      l.filter (fun r => decide (r.publications = c)) := by
  have hpw : (l.filter (fun r => decide (r.publications = c))).Pairwise pubsGe := by
    apply List.pairwise_of_forall_mem_list
    intro a ha b hb
    have ha2 := (List.mem_filter.mp ha).2
    have hb2 := (List.mem_filter.mp hb).2
    have ha3 : a.publications = c := of_decide_eq_true ha2
    have hb3 : b.publications = c := of_decide_eq_true hb2
    unfold pubsGe
    rw [ha3, hb3]
  have hsub : ((l.filter (fun r => decide (r.publications = c))).Sublist (sortByPubsDesc l)) :=
    List.sublist_insertionSort hpw (List.filter_sublist l)
  have hsub2 : ((l.filter (fun r => decide (r.publications = c))).Sublist
      ((sortByPubsDesc l).filter (fun r => decide (r.publications = c)))) := by
    have h0 := List.Sublist.filter (fun r => decide (r.publications = c)) hsub
    rw [List.filter_filter] at h0
    simpa using h0
  have hperm : ((sortByPubsDesc l).filter (fun r => decide (r.publications = c))).Perm
      (l.filter (fun r => decide (r.publications = c))) :=
    (sortByPubsDesc_perm l).filter _
  exact (hsub2.eq_of_length hperm.length_eq.symm).symm

theorem collectSources_nodup (limit : Nat) :
    ∀ (rows : List RelRow) (acc : List String), acc.Nodup →
      (collectSources limit rows acc).Nodup := by
  intro rows
  induction rows with
  | nil => intro acc h; simpa [collectSources] using h
  | cons it rest ih =>
    intro acc h
    simp only [collectSources]
    by_cases hmem : it.source.getD "" ∈ acc
    · rw [if_pos hmem]; exact ih acc h
    · rw [if_neg hmem]
      have h2 : (acc ++ [it.source.getD ""]).Nodup := by
        simp [List.nodup_append, h, hmem]
      split
      · exact h2
      · exact ih _ h2

theorem collectSources_appendSub (limit : Nat) :
    ∀ (rows : List RelRow) (acc : List String), ∃ extra,
      collectSources limit rows acc = acc ++ extra ∧
      extra.Sublist (rows.map (fun it => it.source.getD "")) := by
  intro rows
  induction rows with
  | nil => intro acc; exact ⟨[], by simp [collectSources], List.nil_sublist _⟩
  | cons it rest ih =>
    intro acc
    simp only [collectSources, List.map_cons]
    by_cases hmem : it.source.getD "" ∈ acc
    · rw [if_pos hmem]
      obtain ⟨extra, he, hs⟩ := ih acc
      exact ⟨extra, he, hs.cons _⟩
    · rw [if_neg hmem]
      split
      · exact ⟨[it.source.getD ""], by simp, by
          exact (List.nil_sublist _).cons₂ _⟩
      · obtain ⟨extra, he, hs⟩ := ih (acc ++ [it.source.getD ""])
        exact ⟨it.source.getD "" :: extra, by simp [he], hs.cons₂ _⟩

theorem collectTargets_nodup (limit : Option Nat) :
    ∀ (rows : List RelRow) (acc : List String),
      (acc.map strLower).Nodup →
      ((collectTargets limit rows (acc.map strLower) acc).map strLower).Nodup := by
  intro rows
  induction rows with
  | nil => intro acc h; simpa [collectTargets] using h
  | cons it rest ih =>
    intro acc h
    simp only [collectTargets]
    by_cases hmem : strLower (strTrim (it.target.getD "")) ∈ acc.map strLower
    · rw [if_pos hmem]; exact ih acc h
    · rw [if_neg hmem]
      have h2 : ((acc ++ [strTrim (it.target.getD "")]).map strLower).Nodup := by
        simp only [List.map_append, List.map_cons, List.map_nil]
        simp [List.nodup_append, h, hmem]
      split
      · exact h2
      · have := ih (acc ++ [strTrim (it.target.getD "")]) h2
        simpa [List.map_append] using this

theorem collectTargets_appendSub (limit : Option Nat) :
    ∀ (rows : List RelRow) (seen acc : List String), ∃ extra,
      collectTargets limit rows seen acc = acc ++ extra ∧
      extra.Sublist (rows.map (fun it => strTrim (it.target.getD ""))) := by
  intro rows
  induction rows with
  | nil => intro seen acc; exact ⟨[], by simp [collectTargets], List.nil_sublist _⟩
  | cons it rest ih =>
    intro seen acc
    simp only [collectTargets, List.map_cons]
    by_cases hmem : strLower (strTrim (it.target.getD "")) ∈ seen
    · rw [if_pos hmem]
      obtain ⟨extra, he, hs⟩ := ih seen acc
      exact ⟨extra, he, hs.cons _⟩
    · rw [if_neg hmem]
      split
      · exact ⟨[strTrim (it.target.getD "")], by simp, by
          exact (List.nil_sublist _).cons₂ _⟩
      · obtain ⟨extra, he, hs⟩ := ih (seen ++ [strLower (strTrim (it.target.getD ""))])
          (acc ++ [strTrim (it.target.getD "")])
        exact ⟨strTrim (it.target.getD "") :: extra, by simp [he], hs.cons₂ _⟩

theorem collectTargets_length (limit : Option Nat) (hl : limitTruthy limit = true) :
    ∀ (rows : List RelRow) (seen acc : List String),
      acc.length < limit.getD 0 →
      (collectTargets limit rows seen acc).length ≤ limit.getD 0 := by
  intro rows
  induction rows with
  | nil =>
    intro seen acc h
    simp only [collectTargets]
    omega
  | cons it rest ih =>
    intro seen acc h
    simp only [collectTargets]
    by_cases hmem : strLower (strTrim (it.target.getD "")) ∈ seen
    · rw [if_pos hmem]; exact ih seen acc h
    · rw [if_neg hmem]
      by_cases hbreak : limitTruthy limit = true ∧
          limit.getD 0 ≤ (acc ++ [strTrim (it.target.getD "")]).length
      · rw [if_pos hbreak]
        simp only [List.length_append, List.length_cons, List.length_nil]
        omega
      · rw [if_neg hbreak]
        apply ih
        simp only [hl, true_and, List.length_append, List.length_cons,
          List.length_nil, not_le] at hbreak
        simpa using hbreak



/-- C5 amended: for every parsed relation response, both relation functions
sort their filtered rows by descending publication count with ties kept in
original server order (the sorted list is a permutation of the filtered
rows, pairwise descending, and agrees with the filtered rows on every
equal-count group), then deduplicate the counterpart identifiers
preserving that order (case-insensitively for the drug-anchored variant,
exactly for the disease-anchored one) and truncate to a truthy limit.  The
drug-anchored filter requires an @disease_ target; the disease-anchored
filter — contrary to the original claim — only requires a truthy source
with no opposite-kind check (see the counterexample). -/
theorem c5_relation_ranking (data : List RelRow) (disease_id chemical_id : String)
    (limD : Nat) (limC : Option Nat) :
    (sortByPubsDesc (drugsFilter disease_id data)).Perm (drugsFilter disease_id data) ∧
    (sortByPubsDesc (drugsFilter disease_id data)).Pairwise pubsGe ∧
    (∀ c, (sortByPubsDesc (drugsFilter disease_id data)).filter
        (fun r => decide (r.publications = c)) =
      (drugsFilter disease_id data).filter (fun r => decide (r.publications = c))) ∧
    (sortByPubsDesc (diseasesFilter chemical_id data)).Perm
      (diseasesFilter chemical_id data) ∧
    (sortByPubsDesc (diseasesFilter chemical_id data)).Pairwise pubsGe ∧
    (∀ c, (sortByPubsDesc (diseasesFilter chemical_id data)).filter
        (fun r => decide (r.publications = c)) =
      (diseasesFilter chemical_id data).filter (fun r => decide (r.publications = c))) ∧
    (treatment_drugs_for_disease_rows disease_id limD data).1.Nodup ∧
    ((treatment_drugs_for_disease_rows disease_id limD data).1.Sublist
      ((sortByPubsDesc (drugsFilter disease_id data)).map
        (fun it => it.source.getD ""))) ∧
    (limD ≠ 0 →
      (treatment_drugs_for_disease_rows disease_id limD data).1.length ≤ limD) ∧
    ((treatment_diseases_for_drug_rows chemical_id limC data).1.map strLower).Nodup ∧
    ((treatment_diseases_for_drug_rows chemical_id limC data).1.Sublist
      ((sortByPubsDesc (diseasesFilter chemical_id data)).map
        (fun it => strTrim (it.target.getD "")))) ∧
    (limitTruthy limC = true →
      (treatment_diseases_for_drug_rows chemical_id limC data).1.length ≤ limC.getD 0) := by
  refine ⟨sortByPubsDesc_perm _, sortByPubsDesc_sorted _, sortByPubsDesc_stable _,
    sortByPubsDesc_perm _, sortByPubsDesc_sorted _, sortByPubsDesc_stable _,
    ?_, ?_, ?_, ?_, ?_, ?_⟩
  · simp only [treatment_drugs_for_disease_rows]
    have hnd := collectSources_nodup limD (sortByPubsDesc (drugsFilter disease_id data))
      [] List.nodup_nil
    split
    · exact List.Nodup.sublist (List.take_sublist _ _) hnd
    · exact hnd
  · simp only [treatment_drugs_for_disease_rows]
    obtain ⟨extra, he, hs⟩ := collectSources_appendSub limD
      (sortByPubsDesc (drugsFilter disease_id data)) []
    rw [he]
    simp only [List.nil_append]
    split
    · exact (List.take_sublist _ _).trans hs
    · exact hs
  · intro hl
    simp only [treatment_drugs_for_disease_rows]
    rw [if_pos hl]
    simp [List.length_take]
  · simp only [treatment_diseases_for_drug_rows]
    have := collectTargets_nodup limC (sortByPubsDesc (diseasesFilter chemical_id data)) []
      (by simp)
    simpa using this
  · simp only [treatment_diseases_for_drug_rows]
    obtain ⟨extra, he, hs⟩ := collectTargets_appendSub limC
      (sortByPubsDesc (diseasesFilter chemical_id data)) [] []
    rw [he]
    simpa using hs
  · intro hl
    simp only [treatment_diseases_for_drug_rows]
    apply collectTargets_length limC hl
    cases limC with
    | none => simp [limitTruthy] at hl
    | some l =>
      simp only [limitTruthy, decide_eq_true_eq] at hl
      simpa using Nat.pos_of_ne_zero hl

/-- Counterexample to C5 as stated: a relation row whose source is a gene
identifier passes the filter of the disease-anchored function, whose
returned list then contains a counterpart of the wrong concept kind. -/
theorem c5_kind_filter_cex :
    treatment_drugs_for_disease (fun _ => Attempt.resp 200
      (some [⟨some "@GENE_x", some "@DISEASE_d", 5⟩])) 3 "@DISEASE_d" 10 false =
      .ok (["@GENE_x"], 1) ∧
    startsWithB "@chemical_" (strLower "@GENE_x") = false :=
  ⟨rfl, by decide⟩

/-- Witness for the amended C5: concrete three-row data on which both
truncation bounds of the theorem hold with their hypotheses discharged. -/
theorem c5_relation_ranking_witness :
    (treatment_drugs_for_disease_rows "@DISEASE_d" 2
      [⟨some "@CHEMICAL_a", some "@DISEASE_d", 3⟩,
       ⟨some "@CHEMICAL_b", some "@DISEASE_d", 7⟩,
       ⟨some "@CHEMICAL_c", some "@DISEASE_d", 5⟩]).1.length ≤ 2 ∧
    (treatment_diseases_for_drug_rows "@CHEMICAL_m" (some 1)
      [⟨some "@CHEMICAL_a", some "@DISEASE_d", 3⟩,
       ⟨some "@CHEMICAL_b", some "@DISEASE_d", 7⟩,
       ⟨some "@CHEMICAL_c", some "@DISEASE_d", 5⟩]).1.length ≤ (some 1).getD 0 := by
  have h := c5_relation_ranking
    [⟨some "@CHEMICAL_a", some "@DISEASE_d", 3⟩,
     ⟨some "@CHEMICAL_b", some "@DISEASE_d", 7⟩,
     ⟨some "@CHEMICAL_c", some "@DISEASE_d", 5⟩] "@DISEASE_d" "@CHEMICAL_m" 2 (some 1)
  exact ⟨h.2.2.2.2.2.2.2.2.1 (by decide), h.2.2.2.2.2.2.2.2.2.2.2 (by decide)⟩


/-! ## Claims C6 and C10 -/

theorem truthy_ne_empty {o : Option String} {s : String}
    (h : truthy o = some s) : s ≠ "" := by
  cases o with
  | none => cases h
  | some t =>
    simp only [truthy] at h
    by_cases ht : t = ""
    · rw [if_pos ht] at h; cases h
    · rw [if_neg ht] at h
      injection h with h2
      rw [← h2]
      exact ht

theorem firstTruthy_ne_empty :
    ∀ {l : List (Option String)} {s : String}, firstTruthy l = some s → s ≠ "" := by
  intro l
  induction l with
  | nil => intro s h; cases h
  | cons o os ih =>
    intro s h
    simp only [firstTruthy] at h
    cases ht : truthy o with
    | some t =>
      rw [ht] at h
      injection h with h2
      rw [← h2]
      exact truthy_ne_empty ht
    | none =>
      rw [ht] at h
      exact ih h

theorem lookupKey_cons (x : String × String) (m : List (String × String))
    (k : String) :
    lookupKey (x :: m) k = if x.1 = k then some x.2 else lookupKey m k := by
  by_cases h : x.1 = k
  · simp [lookupKey, List.find?_cons, h]
  · simp [lookupKey, List.find?_cons, h]

theorem lookupKey_map_update_ne {m : List (String × String)} {k v k' : String}
    (hne : k' ≠ k) :
    lookupKey (m.map (fun p => if p.1 = k then (k, v) else p)) k' = lookupKey m k' := by
  induction m with
  | nil => rfl
  | cons a m ih =>
    simp only [List.map_cons]
    rw [lookupKey_cons, lookupKey_cons]
    by_cases hak : a.1 = k
    · rw [if_pos hak]
      rw [if_neg (show ¬(k, v).1 = k' from fun h => hne (h.symm))]
      rw [if_neg (show ¬a.1 = k' from fun h => hne ((hak ▸ h).symm))]
      exact ih
    · rw [if_neg hak]
      by_cases hak2 : a.1 = k'
      · rw [if_pos hak2, if_pos hak2]
      · rw [if_neg hak2, if_neg hak2]
        exact ih

theorem lookupKey_map_update_self {m : List (String × String)} {k v : String}
    (hany : m.any (fun p => decide (p.1 = k)) = true) :
    lookupKey (m.map (fun p => if p.1 = k then (k, v) else p)) k = some v := by
  induction m with
  | nil => cases hany
  | cons a m ih =>
    simp only [List.map_cons]
    rw [lookupKey_cons]
    by_cases hak : a.1 = k
    · rw [if_pos hak, if_pos (show ((k, v) : String × String).1 = k from rfl)]
    · rw [if_neg hak, if_neg (show ¬a.1 = k from hak)]
      have : m.any (fun p => decide (p.1 = k)) = true := by
        simpa [List.any_cons, hak] using hany
      exact ih this

theorem lookupKey_none_of_not_any {m : List (String × String)} {k : String}
    (h : m.any (fun p => decide (p.1 = k)) = false) :
    lookupKey m k = none := by
  induction m with
  | nil => rfl
  | cons a m ih =>
    simp only [List.any_cons, Bool.or_eq_false_iff, decide_eq_false_iff_not] at h
    rw [lookupKey_cons, if_neg h.1]
    exact ih (by simpa using h.2)

theorem lookupKey_append (m1 m2 : List (String × String)) (k : String) :
    lookupKey (m1 ++ m2) k =
      match lookupKey m1 k with
      | some v => some v
      | none => lookupKey m2 k := by
  induction m1 with
  | nil => simp [lookupKey]
  | cons a m ih =>
    rw [List.cons_append, lookupKey_cons, lookupKey_cons]
    by_cases h : a.1 = k
    · rw [if_pos h, if_pos h]
    · rw [if_neg h, if_neg h]
      exact ih

theorem lookupKey_dictInsert (m : List (String × String)) (k v k' : String) :
    lookupKey (dictInsert m k v) k' =
      if k' = k then some v else lookupKey m k' := by
  unfold dictInsert
  by_cases hany : m.any (fun p => decide (p.1 = k)) = true
  · rw [if_pos (by simpa using hany)]
    by_cases hk : k' = k
    · subst hk
      rw [if_pos rfl]
      exact lookupKey_map_update_self hany
    · rw [if_neg hk]
      exact lookupKey_map_update_ne hk
  · rw [Bool.not_eq_true] at hany
    have hn : ¬(m.any (fun p => decide (p.1 = k)) = true) := by
      rw [hany]
      exact Bool.false_ne_true
    rw [if_neg hn]
    rw [lookupKey_append]
    by_cases hk : k' = k
    · subst hk
      rw [lookupKey_none_of_not_any hany]
      rw [if_pos rfl]
      rw [lookupKey_cons]
      rw [if_pos rfl]
    · rw [if_neg hk]
      cases hfind : lookupKey m k' with
      | some p => rfl
      | none =>
        rw [lookupKey_cons]
        rw [if_neg (show ¬(k, v).1 = k' from fun h => hk h.symm)]
        rfl




theorem mem_dictInsert {p : String × String} {m : List (String × String)}
    {k v : String} (h : p ∈ dictInsert m k v) : p ∈ m ∨ p = (k, v) := by
  unfold dictInsert at h
  split at h
  · obtain ⟨q, hq, hfq⟩ := List.mem_map.mp h
    by_cases hqk : q.1 = k
    · right
      rw [← hfq, if_pos hqk]
    · left
      rw [← hfq, if_neg hqk]
      exact hq
  · rcases List.mem_append.mp h with h1 | h1
    · left; exact h1
    · right; simpa using h1

theorem buildMapping_fold_entries :
    ∀ (data : List AutoItem) (m : List (String × String)),
      (∀ p ∈ m, p.1 ≠ "" ∧ p.2 ≠ "") →
      ∀ p ∈ data.foldl (fun out it =>
        match itemName it, itemId it with
        | some n, some i => dictInsert out n i
        | _, _ => out) m, p.1 ≠ "" ∧ p.2 ≠ "" := by
  intro data
  induction data with
  | nil => intro m hm p hp; exact hm p hp
  | cons it rest ih =>
    intro m hm p hp
    simp only [List.foldl_cons] at hp
    cases hn : itemName it with
    | none =>
      rw [hn] at hp
      exact ih m hm p hp
    | some n =>
      cases hi : itemId it with
      | none =>
        rw [hn, hi] at hp
        exact ih m hm p hp
      | some i =>
        rw [hn, hi] at hp
        refine ih (dictInsert m n i) ?_ p hp
        intro q hq
        rcases mem_dictInsert hq with h1 | h1
        · exact hm q h1
        · rw [h1]
          exact ⟨firstTruthy_ne_empty hn, firstTruthy_ne_empty hi⟩

/-- C10: in the mapping built by pubtator_entity_autocomplete, every entry
has a nonempty display name and a nonempty id (rows with a falsy name or id
are skipped); the value stored under a name is the id contributed by the
last row with that effective name (later rows overwrite earlier ones); and
on a concrete two-row response sharing one display name the returned
mapping has fewer entries than the returned total count even though no
limit was given. -/
theorem c10_autocomplete_mapping (data : List AutoItem) :
    (∀ p ∈ buildMapping data, p.1 ≠ "" ∧ p.2 ≠ "") ∧
    (∀ k, lookupKey (buildMapping data) k =
      ((rowPairs data).reverse.find? (fun p => decide (p.1 = k))).map
        (fun p => p.2)) ∧
    (pubtator_entity_autocomplete
      (fun _ => Attempt.resp 200
        [⟨some "A", none, none, some "x", none, none, none⟩,
         ⟨some "A", none, none, some "y", none, none, none⟩])
      (fun _ => Attempt.exn) 3 none false).1 = .ok ([("A", "y")], 2) ∧
    ([("A", "y")] : List (String × String)).length < 2 := by
  refine ⟨buildMapping_fold_entries data [] (by simp), ?_, rfl, by decide⟩
  induction data using List.reverseRecOn with
  | nil => intro k; rfl
  | append_singleton l it ih =>
    intro k
    have hbm : buildMapping (l ++ [it]) =
        (match itemName it, itemId it with
         | some n, some i => dictInsert (buildMapping l) n i
         | _, _ => buildMapping l) := by
      simp only [buildMapping, List.foldl_append, List.foldl_cons, List.foldl_nil]
    have hrp : rowPairs (l ++ [it]) = rowPairs l ++ rowPairs [it] := by
      simp [rowPairs, List.filterMap_append]
    cases hn : itemName it with
    | none =>
      rw [hbm, hn]
      have h0 : rowPairs [it] = [] := by
        simp [rowPairs, rowPair, hn]
      rw [hrp, h0, List.append_nil]
      exact ih k
    | some n =>
      cases hi : itemId it with
      | none =>
        rw [hbm, hn, hi]
        have h0 : rowPairs [it] = [] := by
          simp [rowPairs, rowPair, hn, hi]
        rw [hrp, h0, List.append_nil]
        exact ih k
      | some i =>
        rw [hbm, hn, hi]
        have h1 : rowPairs [it] = [(n, i)] := by
          simp [rowPairs, rowPair, hn, hi]
        rw [hrp, h1]
        rw [lookupKey_dictInsert]
        rw [List.reverse_append]
        simp only [List.reverse_cons, List.reverse_nil, List.nil_append,
          List.cons_append, List.find?_cons]
        by_cases hk : k = n
        · subst hk
          rw [if_pos rfl]
          simp
        · rw [if_neg hk]
          have hnk : ¬((n, i).1 = k) := fun h => hk h.symm
          rw [decide_eq_false hnk]
          simpa using ih k

theorem auto_eq_error {net1 net2 : Nat → Attempt (List AutoItem)}
    {retries : Nat} {limit : Option Nat} {strict : Bool} {e : Unit}
    (hg : _get net1 retries = .error e) :
    pubtator_entity_autocomplete net1 net2 retries limit strict = (.error (), 1) := by
  simp only [pubtator_entity_autocomplete, hg]

theorem auto_eq_http1 {net1 net2 : Nat → Attempt (List AutoItem)}
    {retries : Nat} {limit : Option Nat} {strict : Bool} {s : Nat}
    {d : List AutoItem}
    (hg : _get net1 retries = .ok (s, d)) (hs : isHttpError s = true) :
    pubtator_entity_autocomplete net1 net2 retries limit strict =
      ((if strict then .error () else .ok ([], 0)), 1) := by
  simp only [pubtator_entity_autocomplete, hg, hs, if_true]

theorem auto_eq_nolimit {net1 net2 : Nat → Attempt (List AutoItem)}
    {retries : Nat} {strict : Bool} {s : Nat} {d : List AutoItem}
    (hg : _get net1 retries = .ok (s, d)) (hs : isHttpError s = false) :
    pubtator_entity_autocomplete net1 net2 retries none strict =
      (.ok (buildMapping d, d.length), 1) := by
  simp only [pubtator_entity_autocomplete, hg, hs, Bool.false_eq_true, if_false]

theorem auto_eq_limit_exn {net1 net2 : Nat → Attempt (List AutoItem)}
    {retries l : Nat} {strict : Bool} {s : Nat} {d : List AutoItem} {e : Unit}
    (hg : _get net1 retries = .ok (s, d)) (hs : isHttpError s = false)
    (hg2 : _get net2 retries = .error e) :
    pubtator_entity_autocomplete net1 net2 retries (some l) strict =
      (.error (), 2) := by
  simp only [pubtator_entity_autocomplete, hg, hs, Bool.false_eq_true, if_false, hg2]

theorem auto_eq_limit_http {net1 net2 : Nat → Attempt (List AutoItem)}
    {retries l : Nat} {strict : Bool} {s s2 : Nat} {d d2 : List AutoItem}
    (hg : _get net1 retries = .ok (s, d)) (hs : isHttpError s = false)
    (hg2 : _get net2 retries = .ok (s2, d2)) (hs2 : isHttpError s2 = true) :
    pubtator_entity_autocomplete net1 net2 retries (some l) strict =
      ((if strict then .error () else .ok ([], d.length)), 2) := by
  simp only [pubtator_entity_autocomplete, hg, hs, Bool.false_eq_true, if_false,
    hg2, hs2, if_true]

theorem auto_eq_limit_ok {net1 net2 : Nat → Attempt (List AutoItem)}
    {retries l : Nat} {strict : Bool} {s s2 : Nat} {d d2 : List AutoItem}
    (hg : _get net1 retries = .ok (s, d)) (hs : isHttpError s = false)
    (hg2 : _get net2 retries = .ok (s2, d2)) (hs2 : isHttpError s2 = false) :
    pubtator_entity_autocomplete net1 net2 retries (some l) strict =
      (.ok (buildMapping d2, d.length), 2) := by
  simp only [pubtator_entity_autocomplete, hg, hs, Bool.false_eq_true, if_false,
    hg2, hs2]

/-- C6 amended: the autocomplete embedding issues its second endpoint call
exactly when a limit is requested and the first call returned a
non-error status; the total always comes from the length of the unlimited
first response; with a limit the mapping is built from the second
response; a 4xx/5xx status on the first call yields the empty mapping with
count 0 in lenient mode (the HTTPError propagates in strict mode), one on
the second call yields the empty mapping with the first call count; the
original claim said any non-2xx status fails, but raise_for_status only
raises on 4xx and 5xx — a 3xx response is processed normally (see the
counterexample). -/
theorem c6_autocomplete_protocol (net1 net2 : Nat → Attempt (List AutoItem))
    (retries : Nat) (limit : Option Nat) (strict : Bool) :
    ((pubtator_entity_autocomplete net1 net2 retries limit strict).2 = 2 ↔
      (limit.isSome = true ∧
        ∃ s d, _get net1 retries = .ok (s, d) ∧ isHttpError s = false)) ∧
    (∀ s d, _get net1 retries = .ok (s, d) → isHttpError s = false → limit = none →
      (pubtator_entity_autocomplete net1 net2 retries limit strict).1 =
        .ok (buildMapping d, d.length)) ∧
    (∀ s d s2 d2 l, _get net1 retries = .ok (s, d) → isHttpError s = false →
      limit = some l → _get net2 retries = .ok (s2, d2) → isHttpError s2 = false →
      (pubtator_entity_autocomplete net1 net2 retries limit strict).1 =
        .ok (buildMapping d2, d.length)) ∧
    (∀ s d, _get net1 retries = .ok (s, d) → isHttpError s = true →
      (pubtator_entity_autocomplete net1 net2 retries limit strict).1 =
        (if strict then .error () else .ok ([], 0))) ∧
    (∀ s d s2 d2 l, _get net1 retries = .ok (s, d) → isHttpError s = false →
      limit = some l → _get net2 retries = .ok (s2, d2) → isHttpError s2 = true →
      (pubtator_entity_autocomplete net1 net2 retries limit strict).1 =
        (if strict then .error () else .ok ([], d.length))) ∧
    (∀ e, _get net1 retries = .error e →
      (pubtator_entity_autocomplete net1 net2 retries limit strict).1 = .error () ∧
      (pubtator_entity_autocomplete net1 net2 retries limit strict).2 = 1) := by
  refine ⟨?_, ?_, ?_, ?_, ?_, ?_⟩
  · cases hg : _get net1 retries with
    | error e =>
      rw [auto_eq_error hg]
      constructor
      · intro h; cases h
      · rintro ⟨hl, s, d, h, hs⟩
        cases h
    | ok v =>
      obtain ⟨s, d⟩ := v
      cases hs : isHttpError s with
      | true =>
        rw [auto_eq_http1 hg hs]
        constructor
        · intro h; cases h
        · rintro ⟨hl, s', d', h', hs'⟩
          have h2 : (s, d) = (s', d') := by injection h'
          obtain ⟨rfl, rfl⟩ := (Prod.mk.injEq _ _ _ _).mp h2
          rw [hs] at hs'
          cases hs'
      | false =>
        cases limit with
        | none =>
          rw [auto_eq_nolimit hg hs]
          constructor
          · intro h; cases h
          · rintro ⟨hl, _⟩
            cases hl
        | some l0 =>
          cases hg2 : _get net2 retries with
          | error e2 =>
            rw [auto_eq_limit_exn hg hs hg2]
            simp only [Option.isSome_some, true_and]
            exact ⟨fun _ => ⟨s, d, rfl, hs⟩, fun _ => True.intro⟩
          | ok v2 =>
            obtain ⟨s2, d2⟩ := v2
            cases hs2 : isHttpError s2 with
            | true =>
              rw [auto_eq_limit_http hg hs hg2 hs2]
              simp only [Option.isSome_some, true_and]
              exact ⟨fun _ => ⟨s, d, rfl, hs⟩, fun _ => True.intro⟩
            | false =>
              rw [auto_eq_limit_ok hg hs hg2 hs2]
              simp only [Option.isSome_some, true_and]
              exact ⟨fun _ => ⟨s, d, rfl, hs⟩, fun _ => True.intro⟩
  · intro s d hg hs hlim
    subst hlim
    rw [auto_eq_nolimit hg hs]
  · intro s d s2 d2 l hg hs hlim hg2 hs2
    subst hlim
    rw [auto_eq_limit_ok hg hs hg2 hs2]
  · intro s d hg hs
    rw [auto_eq_http1 hg hs]
  · intro s d s2 d2 l hg hs hlim hg2 hs2
    subst hlim
    rw [auto_eq_limit_http hg hs hg2 hs2]
  · intro e hg
    rw [auto_eq_error hg]
    exact ⟨rfl, rfl⟩

/-- Counterexample to C6 as stated: a 300 status is not a 2xx status, yet
the lenient call returns a nonempty mapping built from its body rather
than the claimed empty mapping, because raise_for_status raises only on
4xx/5xx. -/
theorem c6_non2xx_cex :
    (pubtator_entity_autocomplete
      (fun _ => Attempt.resp 300
        [⟨some "Aspirin", none, none, some "@CHEMICAL_aspirin", none, none, none⟩])
      (fun _ => Attempt.exn) 3 none false).1 =
      .ok ([("Aspirin", "@CHEMICAL_aspirin")], 1) ∧
    isHttpError 300 = false ∧
    ([("Aspirin", "@CHEMICAL_aspirin")] : List (String × String)) ≠ [] :=
  ⟨rfl, by decide, by decide⟩

/-- Witness for the amended C6: one successful unlimited call returns the
mapping of its single row, the discovered total 1, and issues exactly one
endpoint call. -/
theorem c6_autocomplete_protocol_witness :
    (pubtator_entity_autocomplete
      (fun _ => Attempt.resp 200
        [⟨some "Aspirin", none, none, some "@CHEMICAL_aspirin", none, none, none⟩])
      (fun _ => Attempt.exn) 3 none false).1 =
      .ok ([("Aspirin", "@CHEMICAL_aspirin")], 1) ∧
    (pubtator_entity_autocomplete
      (fun _ => Attempt.resp 200
        [⟨some "Aspirin", none, none, some "@CHEMICAL_aspirin", none, none, none⟩])
      (fun _ => Attempt.exn) 3 none false).2 = 1 := by
  have h := c6_autocomplete_protocol
    (fun _ => Attempt.resp 200
      [⟨some "Aspirin", none, none, some "@CHEMICAL_aspirin", none, none, none⟩])
    (fun _ => Attempt.exn) 3 none false
  have h2 := h.2.1 200
    [⟨some "Aspirin", none, none, some "@CHEMICAL_aspirin", none, none, none⟩]
    rfl rfl rfl
  refine ⟨?_, rfl⟩
  rw [h2]
  rfl


/-! ## Claims C7 and C9 -/


theorem tierAdd_append (pred : String × String → Bool) :
    ∀ (items pref : List (String × String)), ∃ t,
      tierAdd pred items pref = pref ++ t := by
  intro items
  induction items with
  | nil => intro pref; exact ⟨[], by simp [tierAdd]⟩
  | cons kv rest ih =>
    intro pref
    simp only [tierAdd, List.foldl_cons]
    by_cases hc : pred kv = true ∧ kv ∉ pref
    · rw [if_pos hc]
      obtain ⟨t, ht⟩ := ih (pref ++ [kv])
      exact ⟨kv :: t, by simpa using ht⟩
    · rw [if_neg hc]
      exact ih pref

theorem mem_of_mem_pref (pred : String × String → Bool)
    {items pref : List (String × String)} {x : String × String}
    (h : x ∈ pref) : x ∈ tierAdd pred items pref := by
  obtain ⟨t, ht⟩ := tierAdd_append pred items pref
  rw [ht]
  exact List.mem_append_left t h

theorem mem_tierAdd_of (pred : String × String → Bool) :
    ∀ {items : List (String × String)} (pref : List (String × String))
      {x : String × String}, x ∈ items → pred x = true →
      x ∈ tierAdd pred items pref := by
  intro items
  induction items with
  | nil => intro pref x h; cases h
  | cons kv rest ih =>
    intro pref x hmem hpred
    simp only [tierAdd, List.foldl_cons]
    rcases List.mem_cons.mp hmem with rfl | htail
    · by_cases hc : pred x = true ∧ x ∉ pref
      · rw [if_pos hc]
        exact mem_of_mem_pref pred (by simp)
      · rw [if_neg hc]
        have hx : x ∈ pref := by
          by_contra hnx
          exact hc ⟨hpred, hnx⟩
        exact mem_of_mem_pref pred hx
    · split
      · exact ih (pref ++ [kv]) htail hpred
      · exact ih pref htail hpred

theorem mem_tierAdd_dest (pred : String × String → Bool) :
    ∀ {items : List (String × String)} {pref : List (String × String)}
      {x : String × String}, x ∈ tierAdd pred items pref →
      x ∈ pref ∨ (x ∈ items ∧ pred x = true) := by
  intro items
  induction items with
  | nil => intro pref x h; exact Or.inl h
  | cons kv rest ih =>
    intro pref x h
    simp only [tierAdd, List.foldl_cons] at h
    by_cases hc : pred kv = true ∧ kv ∉ pref
    · rw [if_pos hc] at h
      rcases ih h with h1 | h1
      · rcases List.mem_append.mp h1 with h2 | h2
        · exact Or.inl h2
        · right
          have : x = kv := by simpa using h2
          subst this
          exact ⟨List.mem_cons_self x rest, hc.1⟩
      · exact Or.inr ⟨List.mem_cons_of_mem kv h1.1, h1.2⟩
    · rw [if_neg hc] at h
      rcases ih h with h1 | h1
      · exact Or.inl h1
      · exact Or.inr ⟨List.mem_cons_of_mem kv h1.1, h1.2⟩

theorem tierAdd_nodup (pred : String × String → Bool) :
    ∀ (items pref : List (String × String)), pref.Nodup →
      (tierAdd pred items pref).Nodup := by
  intro items
  induction items with
  | nil => intro pref h; simpa [tierAdd] using h
  | cons kv rest ih =>
    intro pref h
    simp only [tierAdd, List.foldl_cons]
    by_cases hc : pred kv = true ∧ kv ∉ pref
    · rw [if_pos hc]
      exact ih (pref ++ [kv]) (by simp [List.nodup_append, h, hc.2])
    · rw [if_neg hc]
      exact ih pref h

theorem prefOrder_nodup (drug_name : String) (items : List (String × String)) :
    (prefOrder drug_name items).Nodup := by
  unfold prefOrder
  exact tierAdd_nodup _ items _ (tierAdd_nodup _ items _ (tierAdd_nodup _ items _
    (tierAdd_nodup _ items [] List.nodup_nil)))

theorem prefOrder_mem_dest {drug_name : String} {items : List (String × String)}
    {x : String × String} (h : x ∈ prefOrder drug_name items) : x ∈ items := by
  unfold prefOrder at h
  rcases mem_tierAdd_dest _ h with h1 | h1
  swap
  · exact h1.1
  rcases mem_tierAdd_dest _ h1 with h2 | h2
  swap
  · exact h2.1
  rcases mem_tierAdd_dest _ h2 with h3 | h3
  swap
  · exact h3.1
  rcases mem_tierAdd_dest _ h3 with h4 | h4
  · cases h4
  · exact h4.1

theorem prefOrder_mem_of {drug_name : String} {items : List (String × String)}
    {x : String × String} (h : x ∈ items) : x ∈ prefOrder drug_name items := by
  unfold prefOrder
  exact mem_tierAdd_of _ _ h rfl

/-- C9: for every autocomplete mapping with distinct display names, the
four-tier preference reordering is a permutation of the mapping entries —
none dropped, none duplicated — so the returned id list has length
min(limit, number of resolved entries). -/
theorem c9_pref_permutation (drug_name : String)
    (items : List (String × String)) (limit : Nat)
    (hk : (items.map Prod.fst).Nodup) :
    (prefOrder drug_name items).Perm items ∧
    (resolve_chemical_ids drug_name items limit).length = min limit items.length := by
  have hnd : items.Nodup := hk.of_map _
  have hperm : (prefOrder drug_name items).Perm items := by
    rw [List.perm_ext_iff_of_nodup (prefOrder_nodup drug_name items) hnd]
    intro x
    exact ⟨prefOrder_mem_dest, prefOrder_mem_of⟩
  refine ⟨hperm, ?_⟩
  unfold resolve_chemical_ids
  rw [List.length_take, List.length_map, hperm.length_eq]

/-- C7: glucuronide is one of the configured denylist tokens; the
four-tier preference list is deduplicated across tiers; the returned id
list is truncated to the cap; and an entry whose normalised name equals
the normalised query always ranks above a substring match whose normalised
name differs from the query and contains a denylisted token — the pair
occurs as a sublist of the preference order in that relative position.
Determinism across repeated invocations is inherent: the reordering is a
pure function of the query and the response items. -/
theorem c7_resolution_ordering (drug_name : String)
    (items : List (String × String)) (limit : Nat) (k v k2 v2 : String)
    (h1 : (k, v) ∈ items) (hq : _nrm k = _nrm drug_name)
    (h2 : (k2, v2) ∈ items) (hq2 : _nrm k2 ≠ _nrm drug_name)
    (hsub : substrB (_nrm drug_name) (_nrm k2) = true)
    (hbad : substrB "glucuronide" (_nrm k2) = true) :
    "glucuronide" ∈ _BAD_TOKENS ∧
    (prefOrder drug_name items).Nodup ∧
    (resolve_chemical_ids drug_name items limit).length ≤ limit ∧
    ([(k, v), (k2, v2)]).Sublist (prefOrder drug_name items) := by
  refine ⟨by decide, prefOrder_nodup drug_name items, ?_, ?_⟩
  · unfold resolve_chemical_ids
    simp [List.length_take]
  · have hmem1 : (k, v) ∈ tierAdd
        (fun kv => decide (_nrm kv.1 = _nrm drug_name)) items [] :=
      mem_tierAdd_of _ [] h1 (decide_eq_true hq)
    have hnot2 : (k2, v2) ∉ tierAdd
        (fun kv => decide (_nrm kv.1 = _nrm drug_name)) items [] := by
      intro hmem
      rcases mem_tierAdd_dest _ hmem with h3 | h3
      · cases h3
      · exact hq2 (of_decide_eq_true h3.2)
    obtain ⟨t2, ht2⟩ := tierAdd_append
      (fun kv => decide (kv.2 = _chem_id_for drug_name)) items
      (tierAdd (fun kv => decide (_nrm kv.1 = _nrm drug_name)) items [])
    obtain ⟨t3, ht3⟩ := tierAdd_append
      (fun kv => substrB (_nrm drug_name) (_nrm kv.1) &&
        !(_BAD_TOKENS.any (fun b => substrB b (_nrm kv.1)))) items
      (tierAdd (fun kv => decide (kv.2 = _chem_id_for drug_name)) items
        (tierAdd (fun kv => decide (_nrm kv.1 = _nrm drug_name)) items []))
    obtain ⟨t4, ht4⟩ := tierAdd_append (fun _ => true) items
      (tierAdd (fun kv => substrB (_nrm drug_name) (_nrm kv.1) &&
        !(_BAD_TOKENS.any (fun b => substrB b (_nrm kv.1)))) items
        (tierAdd (fun kv => decide (kv.2 = _chem_id_for drug_name)) items
          (tierAdd (fun kv => decide (_nrm kv.1 = _nrm drug_name)) items [])))
    have hfull : prefOrder drug_name items =
        tierAdd (fun kv => decide (_nrm kv.1 = _nrm drug_name)) items [] ++
        (t2 ++ t3 ++ t4) := by
      unfold prefOrder
      rw [ht4, ht3, ht2]
      simp [List.append_assoc]
    have hmem2 : (k2, v2) ∈ t2 ++ t3 ++ t4 := by
      have hin : (k2, v2) ∈ prefOrder drug_name items := prefOrder_mem_of h2
      rw [hfull] at hin
      rcases List.mem_append.mp hin with h3 | h3
      · exact absurd h3 hnot2
      · exact h3
    rw [hfull]
    have hs1 : ([(k, v)]).Sublist
        (tierAdd (fun kv => decide (_nrm kv.1 = _nrm drug_name)) items []) :=
      List.singleton_sublist.mpr hmem1
    have hs2 : ([(k2, v2)]).Sublist (t2 ++ t3 ++ t4) :=
      List.singleton_sublist.mpr hmem2
    exact List.Sublist.append hs1 hs2

/-- Witness for C9 at a concrete two-entry mapping with distinct names. -/
theorem c9_pref_permutation_witness :
    (prefOrder "Metformin"
      [("Metformin", "@CHEMICAL_metformin"),
       ("Metformin HCl", "@CHEMICAL_metformin_hcl")]).Perm
      [("Metformin", "@CHEMICAL_metformin"),
       ("Metformin HCl", "@CHEMICAL_metformin_hcl")] ∧
    (resolve_chemical_ids "Metformin"
      [("Metformin", "@CHEMICAL_metformin"),
       ("Metformin HCl", "@CHEMICAL_metformin_hcl")] 5).length =
      min 5 ([("Metformin", "@CHEMICAL_metformin"),
       ("Metformin HCl", "@CHEMICAL_metformin_hcl")] :
        List (String × String)).length := by
  have h := c9_pref_permutation "Metformin"
    [("Metformin", "@CHEMICAL_metformin"),
     ("Metformin HCl", "@CHEMICAL_metformin_hcl")] 5 (by decide)
  exact ⟨h.1, h.2⟩

/-- Witness for C7: with a response carrying a glucuronide substring match
ahead of the exact match, the exact match still ranks first. -/
theorem c7_resolution_ordering_witness :
    ([(("Metformin" : String), ("@CHEMICAL_metformin" : String)),
      ("Metformin glucuronide", "@CHEMICAL_metformin_glucuronide")]).Sublist
      (prefOrder "Metformin"
        [("Metformin glucuronide", "@CHEMICAL_metformin_glucuronide"),
         ("Metformin", "@CHEMICAL_metformin")]) ∧
    (resolve_chemical_ids "Metformin"
      [("Metformin glucuronide", "@CHEMICAL_metformin_glucuronide"),
       ("Metformin", "@CHEMICAL_metformin")] 10).length ≤ 10 := by
  have h := c7_resolution_ordering "Metformin"
    [("Metformin glucuronide", "@CHEMICAL_metformin_glucuronide"),
     ("Metformin", "@CHEMICAL_metformin")] 10
    "Metformin" "@CHEMICAL_metformin"
    "Metformin glucuronide" "@CHEMICAL_metformin_glucuronide"
    (by decide) (by decide) (by decide) (by decide) (by decide) (by decide)
  exact ⟨h.2.2.2, h.2.2.1⟩


end PubtatorRag
